import Mathlib

/-!
# Covenant — verification of spec claims against the source

Shallow embedding of the parts of the Covenant toolchain (Rust) that the
frozen claims talk about:

* `covenant-requirements` (extractor, validator, error severities),
* `covenant-runtime` (symbol store, query engine, mutator),
* `covenant-lexer` (`tokenize`),
* `covenant-parser` (`parse`),
* the data-graph relation inversion of `covenant-codegen`.

Rust `HashMap`s keyed by `String` are embedded as association lists whose
keys are unique by construction (the code only inserts after a failed
lookup); iteration order of `HashMap::values` is modelled by list order.
Rust `u64`/`u32`/`usize` counters are embedded as `Nat` (no operation here
comes close to overflow), and `f64` percentages as `ℚ` (the code performs a
single division and multiplication, which the claims treat as exact
arithmetic).

Types that live in crates whose sources are not part of the tree
(`covenant-ast`, the lexer's `token.rs`, the parser's `parser.rs` and
`error.rs`, `covenant-runtime`'s `store.rs` and `types.rs`, and the
`covenant-codegen` data-graph builder) are modelled from the spec; each
such definition carries a doc comment saying so.
-/

namespace Covenant

/-- Modelled from the spec (§3, `covenant-ast` is absent from the tree):
a half-open byte range `[start, stop)` into the original source.  The Rust
field named `end` is called `stop` here because `end` is a Lean keyword. -/
structure Span where
  start : Nat
  stop : Nat
deriving DecidableEq, Repr

/-- Modelled from the spec (§3/§4.6, `covenant-ast` is absent):
requirement priority. -/
inductive Priority where
  | Critical
  | High
  | Medium
  | Low
deriving DecidableEq, Repr

/-- Modelled from the spec (§3, `covenant-ast` is absent): requirement status. -/
inductive ReqStatus where
  | Draft
  | Approved
  | Implemented
  | Tested
deriving DecidableEq, Repr

/-- Modelled from the spec (§3, `covenant-ast` is absent): test kind. -/
inductive TestKind where
  | Unit
  | Integration
  | Golden
  | Property
deriving DecidableEq, Repr

/-! ## covenant-requirements: data types (`src/crates/covenant-requirements/src/lib.rs`) -/

/-- `RequirementInfo` from `covenant-requirements/src/lib.rs`. -/
structure RequirementInfo where
  id : String
  text : Option String
  priority : Priority
  status : ReqStatus
  snippet_id : String
  covered_by : List String
  span : Span
deriving DecidableEq, Repr

/-- `TestInfo` from `covenant-requirements/src/lib.rs`. -/
structure TestInfo where
  id : String
  kind : TestKind
  covers : List String
  snippet_id : String
  span : Span
deriving DecidableEq, Repr

/-- `PrioritySummary` from `covenant-requirements/src/lib.rs`. -/
structure PrioritySummary where
  total : Nat
  covered : Nat
  uncovered : Nat
deriving DecidableEq, Repr

/-- `CoverageSummary` from `covenant-requirements/src/lib.rs`; `f64` is
embedded as `ℚ` and the `by_priority` hash map as an association list. -/
structure CoverageSummary where
  total_requirements : Nat
  covered_requirements : Nat
  uncovered_requirements : Nat
  coverage_percent : ℚ
  by_priority : List (String × PrioritySummary)
deriving DecidableEq, Repr

/-- `RequirementError` from `covenant-requirements/src/lib.rs`. -/
inductive RequirementError where
  | UncoveredRequirement (id : String) (priority : Priority)
      (snippet_id : String) (span : Span)
  | NonexistentRequirement (test_id : String) (req_id : String)
      (snippet_id : String) (span : Span)
  | DuplicateRequirement (id : String) (first : String) (second : String)
      (span : Span)
  | DuplicateTest (id : String) (first : String) (second : String)
      (span : Span)
deriving DecidableEq, Repr

/-- `Severity` from `covenant-requirements/src/lib.rs`. -/
inductive Severity where
  | Error
  | Warning
  | Info
deriving DecidableEq, Repr

/-! ## covenant-requirements: validator (`src/crates/covenant-requirements/src/validator.rs`) -/

/-- `priority_ord` from `validator.rs`: ordinal for comparison
(lower = higher priority). -/
def priority_ord (p : Priority) : Nat :=
  match p with
  | .Critical => 0
  | .High => 1
  | .Medium => 2
  | .Low => 3

/-- `ValidatorConfig` from `validator.rs`. -/
structure ValidatorConfig where
  error_min_priority : Priority
  warning_min_priority : Priority
deriving DecidableEq, Repr

/-- `ValidatorConfig::default_config` from `validator.rs`. -/
def ValidatorConfig.default_config : ValidatorConfig :=
  { error_min_priority := .Critical, warning_min_priority := .High }

/-- `ValidatorConfig::strict` from `validator.rs`. -/
def ValidatorConfig.strict : ValidatorConfig :=
  { error_min_priority := .Low, warning_min_priority := .Low }

/-- `RequirementError::severity` from `covenant-requirements/src/lib.rs`. -/
def RequirementError.severity (e : RequirementError) : Severity :=
  match e with
  | .UncoveredRequirement _ priority _ _ =>
      match priority with
      | .Critical => .Error
      | .High => .Warning
      | _ => .Info
  | .NonexistentRequirement _ _ _ _ => .Error
  | .DuplicateRequirement _ _ _ _ => .Error
  | .DuplicateTest _ _ _ _ => .Error

/-- `RequirementError::severity_with_config` from
`covenant-requirements/src/lib.rs`. -/
def RequirementError.severity_with_config (e : RequirementError)
    (config : ValidatorConfig) : Severity :=
  match e with
  | .UncoveredRequirement _ priority _ _ =>
      let prio := priority_ord priority
      let error_threshold := priority_ord config.error_min_priority
      let warning_threshold := priority_ord config.warning_min_priority
      if prio ≤ error_threshold then .Error
      else if prio ≤ warning_threshold then .Warning
      else .Info
  | .NonexistentRequirement _ _ _ _ => .Error
  | .DuplicateRequirement _ _ _ _ => .Error
  | .DuplicateTest _ _ _ _ => .Error

/-- `check_uncovered_requirements` from `validator.rs`: appends an
`UncoveredRequirement` error for every requirement whose `covered_by` is
empty and whose priority ordinal is at most the warning threshold.  The
`HashMap::values` iteration is embedded as iteration over the list of
requirements. -/
def check_uncovered_requirements (requirements : List RequirementInfo)
    (errors : List RequirementError) (config : ValidatorConfig) :
    List RequirementError :=
  let warning_threshold := priority_ord config.warning_min_priority
  errors ++ (requirements.filter fun req =>
      req.covered_by = [] ∧ priority_ord req.priority ≤ warning_threshold
    ).map fun req =>
      .UncoveredRequirement req.id req.priority req.snippet_id req.span

/-- `compute_summary` from `validator.rs`.  `HashMap::values` is the list of
requirements; `f64` arithmetic is embedded as `ℚ`. -/
def compute_summary (requirements : List RequirementInfo) : CoverageSummary :=
  let total := requirements.length
  let covered := (requirements.filter fun r => ¬ r.covered_by = []).length
  let uncovered := total - covered
  let coverage_percent : ℚ :=
    if total > 0 then ((covered : ℚ) / (total : ℚ)) * 100 else 100
  let by_priority :=
    [Priority.Critical, Priority.High, Priority.Medium, Priority.Low].map
      fun priority =>
        let priority_reqs := requirements.filter fun r => r.priority = priority
        let priority_total := priority_reqs.length
        let priority_covered :=
          (priority_reqs.filter fun r => ¬ r.covered_by = []).length
        (priorityName priority,
          { total := priority_total
            covered := priority_covered
            uncovered := priority_total - priority_covered : PrioritySummary })
  { total_requirements := total
    covered_requirements := covered
    uncovered_requirements := uncovered
    coverage_percent := coverage_percent
    by_priority := by_priority }
where
  /-- `format!("{:?}", priority)` from `compute_summary`. -/
  priorityName : Priority → String
    | .Critical => "Critical"
    | .High => "High"
    | .Medium => "Medium"
    | .Low => "Low"

/-! ## covenant-ast: program shape (modelled from the spec) -/

/-- Modelled from the spec (§3, `covenant-ast` is absent): a `req` entry of a
`requires` section: `(id, text?, priority?, status?, span)`. -/
structure ReqEntry where
  id : String
  text : Option String
  priority : Option Priority
  status : Option ReqStatus
  span : Span
deriving DecidableEq, Repr

/-- Modelled from the spec (§3, `covenant-ast` is absent): a `test` entry of a
`tests` section: `(id, kind, covers, span)`. -/
structure TestEntry where
  id : String
  kind : TestKind
  covers : List String
  span : Span
deriving DecidableEq, Repr

/-- Modelled from the spec (§3, `covenant-ast` is absent): an entry of a
`relations` section: `(to: snippet-id, type: relation-kind)`.  The source
field names `to` and `type` are unavailable in Lean and appear here as
`dst` and `rtype`. -/
structure RelEntry where
  dst : String
  rtype : String
deriving DecidableEq, Repr

/-- Modelled from the spec (§3, `covenant-ast` is absent): a snippet section.
Sections other than `requires`/`tests`/`relations` are not inspected by any
claim and are collapsed into `OtherSection`. -/
inductive SnippetSection where
  | Requires (requirements : List ReqEntry)
  | Tests (tests : List TestEntry)
  | Relations (relations : List RelEntry)
  | OtherSection
deriving DecidableEq, Repr

/-- Modelled from the spec (§3, `covenant-ast` is absent): a snippet with its
`id`, `kind` attribute and ordered section list. -/
structure Snippet where
  id : String
  kind : String
  sections : List SnippetSection
deriving DecidableEq, Repr

/-- Modelled from the spec (§3, `covenant-ast` is absent): a program is either
the `Snippets` form or the `Legacy` form (which carries no sections; its
declarations are irrelevant to every claim and are dropped). -/
inductive Program where
  | Snippets (snippets : List Snippet)
  | Legacy
deriving DecidableEq, Repr

/-! ## covenant-requirements: extractor (`src/crates/covenant-requirements/src/extractor.rs`) -/

/-- `ExtractionResult` from `extractor.rs`; the two `HashMap`s are embedded
as association lists in insertion order (their keys are unique because the
code inserts only after a failed lookup). -/
structure ExtractionResult where
  requirements : List (String × RequirementInfo)
  tests : List (String × TestInfo)
  errors : List RequirementError
deriving DecidableEq, Repr

/-- The `RequirementInfo` built by `extract_from_snippet` for one `req`
entry: priority defaults to Medium, status to Draft, `covered_by` starts
empty. -/
def reqInfoOf (snippet_id : String) (req : ReqEntry) : RequirementInfo :=
  { id := req.id
    text := req.text
    priority := req.priority.getD .Medium
    status := req.status.getD .Draft
    snippet_id := snippet_id
    covered_by := []
    span := req.span }

/-- The `TestInfo` built by `extract_from_snippet` for one `test` entry. -/
def testInfoOf (snippet_id : String) (test : TestEntry) : TestInfo :=
  { id := test.id
    kind := test.kind
    covers := test.covers
    snippet_id := snippet_id
    span := test.span }

/-- The requirement-insertion step of `extract_from_snippet`: build the
`RequirementInfo`, then either record a `DuplicateRequirement` error (when
the id is already present) or insert the first occurrence. -/
def insertReq (snippet_id : String) (st : ExtractionResult) (req : ReqEntry) :
    ExtractionResult :=
  let info : RequirementInfo := reqInfoOf snippet_id req
  match st.requirements.lookup req.id with
  | some existing =>
      { st with errors := st.errors ++
          [.DuplicateRequirement req.id existing.snippet_id snippet_id req.span] }
  | none =>
      { st with requirements := st.requirements ++ [(req.id, info)] }

/-- The test-insertion step of `extract_from_snippet`. -/
def insertTest (snippet_id : String) (st : ExtractionResult) (test : TestEntry) :
    ExtractionResult :=
  let info : TestInfo := testInfoOf snippet_id test
  match st.tests.lookup test.id with
  | some existing =>
      { st with errors := st.errors ++
          [.DuplicateTest test.id existing.snippet_id snippet_id test.span] }
  | none =>
      { st with tests := st.tests ++ [(test.id, info)] }

/-- `extract_from_snippet` from `extractor.rs`: walk the snippet's sections
in order, inserting every `req` and `test`. -/
def extract_from_snippet (st : ExtractionResult) (snippet : Snippet) :
    ExtractionResult :=
  snippet.sections.foldl
    (fun st section_ =>
      match section_ with
      | .Requires reqs => reqs.foldl (insertReq snippet.id) st
      | .Tests tests => tests.foldl (insertTest snippet.id) st
      | _ => st)
    st

/-- `extract` from `extractor.rs`. -/
def extract (program : Program) : ExtractionResult :=
  match program with
  | .Snippets snippets =>
      snippets.foldl extract_from_snippet ⟨[], [], []⟩
  | .Legacy => ⟨[], [], []⟩

/-! ## covenant-requirements: coverage links and `validate` (`validator.rs`) -/

/-- The `if !req.covered_by.contains(test_id)` update inside
`build_coverage_links`: append the test id to `covered_by` unless already
present. -/
def updateCovered (test_id : String) (r : RequirementInfo) : RequirementInfo :=
  if test_id ∈ r.covered_by then r
  else { r with covered_by := r.covered_by ++ [test_id] }

/-- The body of `build_coverage_links` for a single `covers` entry: append
the test id to the target requirement's `covered_by` (deduplicated), or
record a `NonexistentRequirement` error. -/
def linkCover (test_id : String) (test : TestInfo)
    (st : List (String × RequirementInfo) × List RequirementError)
    (req_id : String) :
    List (String × RequirementInfo) × List RequirementError :=
  if (st.1.lookup req_id).isSome then
    (st.1.map fun p =>
      if p.1 = req_id then (p.1, updateCovered test_id p.2) else p,
     st.2)
  else
    (st.1,
     st.2 ++ [.NonexistentRequirement test_id req_id test.snippet_id test.span])

/-- `build_coverage_links` from `validator.rs`: iterate tests and their
`covers` entries, threading the requirement map and the error list. -/
def build_coverage_links (requirements : List (String × RequirementInfo))
    (tests : List (String × TestInfo)) (errors : List RequirementError) :
    List (String × RequirementInfo) × List RequirementError :=
  tests.foldl
    (fun st (test_id, test) => test.covers.foldl (linkCover test_id test) st)
    (requirements, errors)

/-- `CoverageReport` from `covenant-requirements/src/lib.rs`. -/
structure CoverageReport where
  requirements : List (String × RequirementInfo)
  tests : List (String × TestInfo)
  summary : CoverageSummary
  errors : List RequirementError
deriving DecidableEq, Repr

/-- `validate` from `validator.rs`: build coverage links, check uncovered
requirements, compute the summary.  `HashMap::values` is embedded as the
list of map values. -/
def validate (extraction : ExtractionResult) (config : ValidatorConfig) :
    CoverageReport :=
  let linked := build_coverage_links extraction.requirements extraction.tests
    extraction.errors
  let requirements := linked.1
  let errors := check_uncovered_requirements (requirements.map Prod.snd)
    linked.2 config
  let summary := compute_summary (requirements.map Prod.snd)
  { requirements := requirements
    tests := extraction.tests
    summary := summary
    errors := errors }

/-! ## Flattened view of extraction (for reasoning about `extract`) -/

/-- One insertion performed by `extract`: either a `req` or a `test` entry,
tagged with the id of the snippet it came from. -/
inductive ExtractEvent where
  | reqEv (snippet_id : String) (req : ReqEntry)
  | testEv (snippet_id : String) (test : TestEntry)
deriving DecidableEq, Repr

/-- A single insertion step of `extract`. -/
def extractStep (st : ExtractionResult) (ev : ExtractEvent) : ExtractionResult :=
  match ev with
  | .reqEv sid req => insertReq sid st req
  | .testEv sid test => insertTest sid st test

/-- The insertions performed for one section, in order. -/
def sectionEvents (snippet_id : String) (sec : SnippetSection) :
    List ExtractEvent :=
  match sec with
  | .Requires reqs => reqs.map (.reqEv snippet_id)
  | .Tests tests => tests.map (.testEv snippet_id)
  | _ => []

/-- The insertions performed for one snippet, in section order. -/
def snippetEvents (s : Snippet) : List ExtractEvent :=
  s.sections.flatMap (sectionEvents s.id)

/-- The insertions performed for a whole program, in snippet order. -/
def programEvents (p : Program) : List ExtractEvent :=
  match p with
  | .Snippets snippets => snippets.flatMap snippetEvents
  | .Legacy => []

/-- The requirement ids occurring in a list of events, in order. -/
def reqIdsOfEvents (evs : List ExtractEvent) : List String :=
  evs.filterMap fun ev =>
    match ev with
    | .reqEv _ req => some req.id
    | _ => none

/-- The test ids occurring in a list of events, in order. -/
def testIdsOfEvents (evs : List ExtractEvent) : List String :=
  evs.filterMap fun ev =>
    match ev with
    | .testEv _ test => some test.id
    | _ => none

/-- The first `req` occurrence with the given id, with its snippet. -/
def firstReqOcc (id : String) (evs : List ExtractEvent) :
    Option (String × ReqEntry) :=
  evs.findSome? fun ev =>
    match ev with
    | .reqEv sid req => if req.id = id then some (sid, req) else none
    | _ => none

/-- The first `test` occurrence with the given id, with its snippet. -/
def firstTestOcc (id : String) (evs : List ExtractEvent) :
    Option (String × TestEntry) :=
  evs.findSome? fun ev =>
    match ev with
    | .testEv sid test => if test.id = id then some (sid, test) else none
    | _ => none

/-- `true` exactly on `DuplicateRequirement` errors carrying the given id. -/
def isDupReqFor (id : String) : RequirementError → Bool
  | .DuplicateRequirement i _ _ _ => i == id
  | _ => false

/-- `true` exactly on `DuplicateTest` errors carrying the given id. -/
def isDupTestFor (id : String) : RequirementError → Bool
  | .DuplicateTest i _ _ _ => i == id
  | _ => false

/-- Processing one snippet is processing its events in order. -/
theorem extract_from_snippet_eq_events (st : ExtractionResult) (s : Snippet) :
    extract_from_snippet st s = (snippetEvents s).foldl extractStep st := by
  unfold extract_from_snippet snippetEvents
  induction s.sections generalizing st with
  | nil => rfl
  | cons sec secs ih =>
    rw [List.foldl_cons, List.flatMap_cons, List.foldl_append, ih]
    congr 1
    cases sec with
    | Requires reqs =>
      show reqs.foldl (insertReq s.id) st = _
      rw [sectionEvents, List.foldl_map]
      rfl
    | Tests tests =>
      show tests.foldl (insertTest s.id) st = _
      rw [sectionEvents, List.foldl_map]
      rfl
    | Relations rels => rfl
    | OtherSection => rfl

/-- `extract` is the fold of `extractStep` over the program's events. -/
theorem extract_eq_foldl_events (p : Program) :
    extract p = (programEvents p).foldl extractStep ⟨[], [], []⟩ := by
  cases p with
  | Legacy => rfl
  | Snippets snippets =>
    show snippets.foldl extract_from_snippet ⟨[], [], []⟩ = _
    rw [programEvents]
    generalize (⟨[], [], []⟩ : ExtractionResult) = st
    induction snippets generalizing st with
    | nil => rfl
    | cons s ss ih =>
      rw [List.foldl_cons, List.flatMap_cons, List.foldl_append,
        extract_from_snippet_eq_events, ih]

/-- `firstReqOcc` over a cons with a `req` event. -/
theorem firstReqOcc_cons_req (id sid : String) (req : ReqEntry)
    (evs : List ExtractEvent) :
    firstReqOcc id (.reqEv sid req :: evs) =
      if req.id = id then some (sid, req) else firstReqOcc id evs := by
  rw [firstReqOcc, List.findSome?_cons]
  by_cases h : req.id = id
  · simp [h]
  · simp only [if_neg h]
    rfl

/-- `firstReqOcc` ignores `test` events. -/
theorem firstReqOcc_cons_test (id sid : String) (test : TestEntry)
    (evs : List ExtractEvent) :
    firstReqOcc id (.testEv sid test :: evs) = firstReqOcc id evs := by
  rw [firstReqOcc, List.findSome?_cons]
  rfl

/-- `firstTestOcc` over a cons with a `test` event. -/
theorem firstTestOcc_cons_test (id sid : String) (test : TestEntry)
    (evs : List ExtractEvent) :
    firstTestOcc id (.testEv sid test :: evs) =
      if test.id = id then some (sid, test) else firstTestOcc id evs := by
  rw [firstTestOcc, List.findSome?_cons]
  by_cases h : test.id = id
  · simp [h]
  · simp only [if_neg h]
    rfl

/-- `firstTestOcc` ignores `req` events. -/
theorem firstTestOcc_cons_req (id sid : String) (req : ReqEntry)
    (evs : List ExtractEvent) :
    firstTestOcc id (.reqEv sid req :: evs) = firstTestOcc id evs := by
  rw [firstTestOcc, List.findSome?_cons]
  rfl

/-- Appending a binding for a different key does not change a lookup. -/
theorem lookup_append_single_ne {α β : Type} [BEq α] [LawfulBEq α]
    (l : List (α × β)) (k k' : α) (v : β) (h : ¬ k' = k) :
    (l ++ [(k', v)]).lookup k = l.lookup k := by
  rw [List.lookup_append]
  cases hl : l.lookup k with
  | some w => rfl
  | none => simp [List.lookup, beq_false_of_ne (fun hh => h hh.symm)]

/-- Appending a binding for an absent key makes its lookup succeed. -/
theorem lookup_append_single_self {α β : Type} [BEq α] [LawfulBEq α]
    (l : List (α × β))
    (k : α) (v : β) (h : l.lookup k = none) :
    (l ++ [(k, v)]).lookup k = some v := by
  rw [List.lookup_append, h]
  simp

/-- The duplicate-count contribution of a run of insertions, depending on
whether the id was already bound when the run started. -/
def countBase {β : Type} (lk : Option β) (n : Nat) : Nat :=
  match lk with
  | some _ => n
  | none => n - 1

theorem countBase_some {β : Type} (v : β) (n : Nat) :
    countBase (some v) n = n := rfl

theorem countBase_none {β : Type} (n : Nat) :
    countBase (none : Option β) n = n - 1 := rfl

/-- `insertReq` when the id is already bound: only an error is recorded. -/
theorem insertReq_some (sid : String) (st : ExtractionResult) (req : ReqEntry)
    (existing : RequirementInfo)
    (h : st.requirements.lookup req.id = some existing) :
    insertReq sid st req =
      ⟨st.requirements, st.tests,
        st.errors ++ [.DuplicateRequirement req.id existing.snippet_id sid
          req.span]⟩ := by
  unfold insertReq
  rw [h]

/-- `insertReq` when the id is new: the binding is appended. -/
theorem insertReq_none (sid : String) (st : ExtractionResult) (req : ReqEntry)
    (h : st.requirements.lookup req.id = none) :
    insertReq sid st req =
      ⟨st.requirements ++ [(req.id, reqInfoOf sid req)], st.tests,
        st.errors⟩ := by
  unfold insertReq
  rw [h]

/-- `insertTest` when the id is already bound: only an error is recorded. -/
theorem insertTest_some (sid : String) (st : ExtractionResult)
    (test : TestEntry) (existing : TestInfo)
    (h : st.tests.lookup test.id = some existing) :
    insertTest sid st test =
      ⟨st.requirements, st.tests,
        st.errors ++ [.DuplicateTest test.id existing.snippet_id sid
          test.span]⟩ := by
  unfold insertTest
  rw [h]

/-- `insertTest` when the id is new: the binding is appended. -/
theorem insertTest_none (sid : String) (st : ExtractionResult)
    (test : TestEntry) (h : st.tests.lookup test.id = none) :
    insertTest sid st test =
      ⟨st.requirements, st.tests ++ [(test.id, testInfoOf sid test)],
        st.errors⟩ := by
  unfold insertTest
  rw [h]

/-- Per-id count of `DuplicateRequirement` errors produced by a run of
insertions: one error per occurrence, except that the first occurrence is
error-free when the id is not yet present. -/
theorem foldl_dupReq_count (id : String) :
    ∀ (evs : List ExtractEvent) (st : ExtractionResult),
      (evs.foldl extractStep st).errors.countP (isDupReqFor id) =
        st.errors.countP (isDupReqFor id) +
          countBase (st.requirements.lookup id)
            ((reqIdsOfEvents evs).count id) := by
  intro evs
  induction evs with
  | nil =>
    intro st
    cases st.requirements.lookup id <;>
      simp [reqIdsOfEvents, countBase_some, countBase_none]
  | cons ev evs ih =>
    intro st
    rw [List.foldl_cons]
    cases ev with
    | reqEv sid req =>
      show (evs.foldl extractStep (insertReq sid st req)).errors.countP _ = _
      have hids : reqIdsOfEvents (.reqEv sid req :: evs) =
          req.id :: reqIdsOfEvents evs := by
        simp [reqIdsOfEvents]
      rw [hids]
      cases hl : st.requirements.lookup req.id with
      | some existing =>
        rw [insertReq_some sid st req existing hl, ih]
        by_cases hid : req.id = id
        · subst hid
          rw [hl, countBase_some, countBase_some, List.count_cons_self,
            List.countP_append]
          have h1 : (List.countP (isDupReqFor req.id)
              [RequirementError.DuplicateRequirement req.id
                existing.snippet_id sid req.span]) = 1 := by
            simp [isDupReqFor]
          rw [h1]
          omega
        · rw [List.count_cons_of_ne (fun h => hid h.symm), List.countP_append]
          have h0 : (List.countP (isDupReqFor id)
              [RequirementError.DuplicateRequirement req.id
                existing.snippet_id sid req.span]) = 0 := by
            simp [isDupReqFor, hid]
          rw [h0, Nat.add_zero]
      | none =>
        rw [insertReq_none sid st req hl, ih]
        by_cases hid : req.id = id
        · subst hid
          rw [lookup_append_single_self st.requirements req.id _ hl, hl,
            countBase_some, countBase_none, List.count_cons_self]
          dsimp only
          omega
        · rw [lookup_append_single_ne st.requirements id req.id _ hid,
            List.count_cons_of_ne (fun h => hid h.symm)]
    | testEv sid test =>
      show (evs.foldl extractStep (insertTest sid st test)).errors.countP _ = _
      have hids : reqIdsOfEvents (.testEv sid test :: evs) =
          reqIdsOfEvents evs := by
        simp [reqIdsOfEvents]
      rw [hids]
      cases hl : st.tests.lookup test.id with
      | some existing =>
        rw [insertTest_some sid st test existing hl, ih, List.countP_append]
        have h0 : (List.countP (isDupReqFor id)
            [RequirementError.DuplicateTest test.id
              existing.snippet_id sid test.span]) = 0 := by
          simp [isDupReqFor]
        rw [h0, Nat.add_zero]
      | none =>
        rw [insertTest_none sid st test hl, ih]

/-- The requirement map after a run of insertions: existing bindings win,
otherwise the first occurrence in the run. -/
theorem foldl_req_lookup (id : String) :
    ∀ (evs : List ExtractEvent) (st : ExtractionResult),
      (evs.foldl extractStep st).requirements.lookup id =
        (st.requirements.lookup id).or
          ((firstReqOcc id evs).map fun o => reqInfoOf o.1 o.2) := by
  intro evs
  induction evs with
  | nil =>
    intro st
    simp [firstReqOcc]
  | cons ev evs ih =>
    intro st
    rw [List.foldl_cons]
    cases ev with
    | reqEv sid req =>
      show (evs.foldl extractStep (insertReq sid st req)).requirements.lookup
        id = _
      rw [firstReqOcc_cons_req]
      cases hl : st.requirements.lookup req.id with
      | some existing =>
        rw [insertReq_some sid st req existing hl, ih]
        by_cases hid : req.id = id
        · subst hid
          rw [if_pos rfl, hl]
          cases (firstReqOcc req.id evs).map (fun o => reqInfoOf o.1 o.2) <;>
            rfl
        · rw [if_neg hid]
      | none =>
        rw [insertReq_none sid st req hl, ih]
        by_cases hid : req.id = id
        · subst hid
          rw [lookup_append_single_self st.requirements req.id _ hl, hl,
            if_pos rfl]
          cases (firstReqOcc req.id evs).map (fun o => reqInfoOf o.1 o.2) <;>
            rfl
        · rw [if_neg hid,
            lookup_append_single_ne st.requirements id req.id _ hid]
    | testEv sid test =>
      show (evs.foldl extractStep (insertTest sid st test)).requirements.lookup
        id = _
      rw [firstReqOcc_cons_test]
      cases hl : st.tests.lookup test.id with
      | some existing => rw [insertTest_some sid st test existing hl, ih]
      | none => rw [insertTest_none sid st test hl, ih]

/-- Per-id count of `DuplicateTest` errors, symmetric to
`foldl_dupReq_count`. -/
theorem foldl_dupTest_count (id : String) :
    ∀ (evs : List ExtractEvent) (st : ExtractionResult),
      (evs.foldl extractStep st).errors.countP (isDupTestFor id) =
        st.errors.countP (isDupTestFor id) +
          countBase (st.tests.lookup id)
            ((testIdsOfEvents evs).count id) := by
  intro evs
  induction evs with
  | nil =>
    intro st
    cases st.tests.lookup id <;>
      simp [testIdsOfEvents, countBase_some, countBase_none]
  | cons ev evs ih =>
    intro st
    rw [List.foldl_cons]
    cases ev with
    | testEv sid test =>
      show (evs.foldl extractStep (insertTest sid st test)).errors.countP _ = _
      have hids : testIdsOfEvents (.testEv sid test :: evs) =
          test.id :: testIdsOfEvents evs := by
        simp [testIdsOfEvents]
      rw [hids]
      cases hl : st.tests.lookup test.id with
      | some existing =>
        rw [insertTest_some sid st test existing hl, ih]
        by_cases hid : test.id = id
        · subst hid
          rw [hl, countBase_some, countBase_some, List.count_cons_self,
            List.countP_append]
          have h1 : (List.countP (isDupTestFor test.id)
              [RequirementError.DuplicateTest test.id
                existing.snippet_id sid test.span]) = 1 := by
            simp [isDupTestFor]
          rw [h1]
          omega
        · rw [List.count_cons_of_ne (fun h => hid h.symm), List.countP_append]
          have h0 : (List.countP (isDupTestFor id)
              [RequirementError.DuplicateTest test.id
                existing.snippet_id sid test.span]) = 0 := by
            simp [isDupTestFor, hid]
          rw [h0, Nat.add_zero]
      | none =>
        rw [insertTest_none sid st test hl, ih]
        by_cases hid : test.id = id
        · subst hid
          rw [lookup_append_single_self st.tests test.id _ hl, hl,
            countBase_some, countBase_none, List.count_cons_self]
          dsimp only
          omega
        · rw [lookup_append_single_ne st.tests id test.id _ hid,
            List.count_cons_of_ne (fun h => hid h.symm)]
    | reqEv sid req =>
      show (evs.foldl extractStep (insertReq sid st req)).errors.countP _ = _
      have hids : testIdsOfEvents (.reqEv sid req :: evs) =
          testIdsOfEvents evs := by
        simp [testIdsOfEvents]
      rw [hids]
      cases hl : st.requirements.lookup req.id with
      | some existing =>
        rw [insertReq_some sid st req existing hl, ih, List.countP_append]
        have h0 : (List.countP (isDupTestFor id)
            [RequirementError.DuplicateRequirement req.id
              existing.snippet_id sid req.span]) = 0 := by
          simp [isDupTestFor]
        rw [h0, Nat.add_zero]
      | none =>
        rw [insertReq_none sid st req hl, ih]

/-- The test map after a run of insertions, symmetric to
`foldl_req_lookup`. -/
theorem foldl_test_lookup (id : String) :
    ∀ (evs : List ExtractEvent) (st : ExtractionResult),
      (evs.foldl extractStep st).tests.lookup id =
        (st.tests.lookup id).or
          ((firstTestOcc id evs).map fun o => testInfoOf o.1 o.2) := by
  intro evs
  induction evs with
  | nil =>
    intro st
    simp [firstTestOcc]
  | cons ev evs ih =>
    intro st
    rw [List.foldl_cons]
    cases ev with
    | testEv sid test =>
      show (evs.foldl extractStep (insertTest sid st test)).tests.lookup
        id = _
      rw [firstTestOcc_cons_test]
      cases hl : st.tests.lookup test.id with
      | some existing =>
        rw [insertTest_some sid st test existing hl, ih]
        by_cases hid : test.id = id
        · subst hid
          rw [if_pos rfl, hl]
          cases (firstTestOcc test.id evs).map (fun o => testInfoOf o.1 o.2) <;>
            rfl
        · rw [if_neg hid]
      | none =>
        rw [insertTest_none sid st test hl, ih]
        by_cases hid : test.id = id
        · subst hid
          rw [lookup_append_single_self st.tests test.id _ hl, hl, if_pos rfl]
          cases (firstTestOcc test.id evs).map (fun o => testInfoOf o.1 o.2) <;>
            rfl
        · rw [if_neg hid, lookup_append_single_ne st.tests id test.id _ hid]
    | reqEv sid req =>
      show (evs.foldl extractStep (insertReq sid st req)).tests.lookup
        id = _
      rw [firstTestOcc_cons_req]
      cases hl : st.requirements.lookup req.id with
      | some existing => rw [insertReq_some sid st req existing hl, ih]
      | none => rw [insertReq_none sid st req hl, ih]

/-- `true` exactly on the `UncoveredRequirement` variant. -/
def RequirementError.isUncovered : RequirementError → Bool
  | .UncoveredRequirement _ _ _ _ => true
  | _ => false

/-- The fields of a `RequirementInfo` other than `covered_by` (the only
field `build_coverage_links` may change). -/
def staticFields (r : RequirementInfo) :
    String × Priority × ReqStatus × String × Option String × Span :=
  (r.id, r.priority, r.status, r.snippet_id, r.text, r.span)

/-- A fold preserves any quantity each step preserves. -/
theorem foldl_preserves {α β γ : Type} (f : α → γ) (step : α → β → α)
    (h : ∀ st x, f (step st x) = f st) :
    ∀ (l : List β) (st : α), f (l.foldl step st) = f st := by
  intro l
  induction l with
  | nil => intro st; rfl
  | cons x xs ih => intro st; rw [List.foldl_cons, ih, h]

/-- Looking up in an association list mapped by a key-preserving function. -/
theorem lookup_map_keyed {α β : Type} [BEq α] [LawfulBEq α] [DecidableEq α]
    (g : α → β → β) (k : α) (l : List (α × β)) :
    (l.map fun p => (p.1, g p.1 p.2)).lookup k = (l.lookup k).map (g k) := by
  induction l with
  | nil => rfl
  | cons p l ih =>
    obtain ⟨k', v⟩ := p
    by_cases hk : k = k'
    · simp [List.lookup_cons, hk]
    · simp [List.lookup_cons, beq_false_of_ne hk, ih]

/-- In an association list with `Nodup` keys, membership of a pair is the
same as a successful lookup. -/
theorem mem_iff_lookup_of_nodup {α β : Type} [BEq α] [LawfulBEq α]
    [DecidableEq α] (l : List (α × β))
    (k : α) (v : β) (hnd : (l.map Prod.fst).Nodup) :
    (k, v) ∈ l ↔ l.lookup k = some v := by
  induction l with
  | nil => simp
  | cons p l ih =>
    obtain ⟨k', v'⟩ := p
    simp only [List.map_cons, List.nodup_cons] at hnd
    by_cases hk : k = k'
    · subst hk
      simp only [List.lookup_cons, beq_self_eq_true, List.mem_cons,
        Option.some.injEq]
      constructor
      · rintro (h | h)
        · exact (Prod.mk.injEq _ _ _ _ ▸ h).2.symm ▸ rfl
        · exact absurd (List.mem_map_of_mem Prod.fst h) hnd.1
      · rintro rfl
        exact Or.inl rfl
    · simp only [List.lookup_cons, beq_false_of_ne hk, List.mem_cons]
      rw [← ih hnd.2]
      constructor
      · rintro (h | h)
        · exact absurd (congrArg Prod.fst h) hk
        · exact h
      · exact Or.inr

/-- `updateCovered` changes only `covered_by`. -/
theorem staticFields_updateCovered (test_id : String) (r : RequirementInfo) :
    staticFields (updateCovered test_id r) = staticFields r := by
  unfold updateCovered staticFields
  split <;> rfl

/-- `linkCover` does not change the key list of the requirement map. -/
theorem linkCover_keys (test_id : String) (test : TestInfo)
    (st : List (String × RequirementInfo) × List RequirementError)
    (req_id : String) :
    (linkCover test_id test st req_id).1.map Prod.fst = st.1.map Prod.fst := by
  unfold linkCover
  split
  · simp only [List.map_map]
    congr 1
    funext p
    by_cases h : p.1 = req_id <;> simp [h]
  · rfl

/-- `linkCover` preserves every requirement's fields other than `covered_by`. -/
theorem linkCover_staticFields (test_id : String) (test : TestInfo)
    (st : List (String × RequirementInfo) × List RequirementError)
    (req_id k : String) :
    ((linkCover test_id test st req_id).1.lookup k).map staticFields =
      (st.1.lookup k).map staticFields := by
  unfold linkCover
  split
  · rw [show (fun (p : String × RequirementInfo) =>
          if p.1 = req_id then (p.1, updateCovered test_id p.2) else p) =
        (fun p => (p.1,
          (fun (k' : String) (r : RequirementInfo) =>
            if k' = req_id then updateCovered test_id r else r) p.1 p.2)) from by
      funext p
      by_cases h : p.1 = req_id <;> simp [h]]
    rw [lookup_map_keyed
      (fun (k' : String) (r : RequirementInfo) =>
        if k' = req_id then updateCovered test_id r else r) k st.1]
    cases st.1.lookup k with
    | none => rfl
    | some v =>
      by_cases h : k = req_id
      · simp [h, staticFields_updateCovered]
      · simp [h]
  · rfl

/-- `linkCover` adds no `UncoveredRequirement` error. -/
theorem linkCover_uncovered_count (test_id : String) (test : TestInfo)
    (st : List (String × RequirementInfo) × List RequirementError)
    (req_id : String) :
    (linkCover test_id test st req_id).2.countP RequirementError.isUncovered =
      st.2.countP RequirementError.isUncovered := by
  unfold linkCover
  split
  · rfl
  · simp [RequirementError.isUncovered]

/-- `build_coverage_links` preserves the key list of the requirement map. -/
theorem build_coverage_links_keys (requirements : List (String × RequirementInfo))
    (tests : List (String × TestInfo)) (errors : List RequirementError) :
    (build_coverage_links requirements tests errors).1.map Prod.fst =
      requirements.map Prod.fst := by
  unfold build_coverage_links
  refine foldl_preserves (fun st => st.1.map Prod.fst) _ ?_ tests (requirements, errors)
  intro st x
  obtain ⟨tid, t⟩ := x
  exact foldl_preserves (fun s => s.1.map Prod.fst) (linkCover tid t)
    (fun st' r => linkCover_keys tid t st' r) t.covers st

/-- `build_coverage_links` preserves every requirement's fields other than
`covered_by`. -/
theorem build_coverage_links_staticFields
    (requirements : List (String × RequirementInfo))
    (tests : List (String × TestInfo)) (errors : List RequirementError)
    (k : String) :
    ((build_coverage_links requirements tests errors).1.lookup k).map staticFields =
      (requirements.lookup k).map staticFields := by
  unfold build_coverage_links
  refine foldl_preserves (fun st => (st.1.lookup k).map staticFields) _ ?_ tests
    (requirements, errors)
  intro st x
  obtain ⟨tid, t⟩ := x
  exact foldl_preserves (fun s => (s.1.lookup k).map staticFields) (linkCover tid t)
    (fun st' r => linkCover_staticFields tid t st' r k) t.covers st

/-- `build_coverage_links` adds no `UncoveredRequirement` error. -/
theorem build_coverage_links_uncovered_count
    (requirements : List (String × RequirementInfo))
    (tests : List (String × TestInfo)) (errors : List RequirementError) :
    (build_coverage_links requirements tests errors).2.countP
        RequirementError.isUncovered =
      errors.countP RequirementError.isUncovered := by
  unfold build_coverage_links
  refine foldl_preserves (fun st => st.2.countP RequirementError.isUncovered) _ ?_
    tests (requirements, errors)
  intro st x
  obtain ⟨tid, t⟩ := x
  exact foldl_preserves (fun s => s.2.countP RequirementError.isUncovered)
    (linkCover tid t)
    (fun st' r => linkCover_uncovered_count tid t st' r) t.covers st

/-! ## Claim C10: `severity_with_config` at the default configuration -/

/-- C10: for every `RequirementError` `e`, `e.severity_with_config` applied
to the default `ValidatorConfig` (`error_min_priority = Critical`,
`warning_min_priority = High`) returns exactly `e.severity()`: Critical
uncovered requirements map to Error, High to Warning, Medium and Low to
Info, and every non-uncovered error kind to Error. -/
theorem severity_with_default_config_eq_severity (e : RequirementError) :
    e.severity_with_config ValidatorConfig.default_config = e.severity := by
  cases e with
  | UncoveredRequirement id priority snippet_id span => cases priority <;> rfl
  | NonexistentRequirement test_id req_id snippet_id span => rfl
  | DuplicateRequirement id first second span => rfl
  | DuplicateTest id first second span => rfl

/-! ## Claim C4: the coverage-summary laws -/

/-- C4: for every extracted requirement set, `compute_summary` satisfies
`covered + uncovered = total`, `coverage_percent = 100 * covered / total`
when `total > 0` and `100` when `total = 0`, and each per-priority entry
satisfies `covered + uncovered = total`. -/
theorem compute_summary_laws (requirements : List RequirementInfo) :
    (compute_summary requirements).covered_requirements +
        (compute_summary requirements).uncovered_requirements =
      (compute_summary requirements).total_requirements ∧
    (compute_summary requirements).coverage_percent =
      (if (compute_summary requirements).total_requirements = 0 then 100
       else (100 * (compute_summary requirements).covered_requirements /
         (compute_summary requirements).total_requirements : ℚ)) ∧
    ∀ pr ∈ (compute_summary requirements).by_priority,
      pr.2.covered + pr.2.uncovered = pr.2.total := by
  refine ⟨?_, ?_, ?_⟩
  · simp only [compute_summary]
    exact Nat.add_sub_cancel' (List.length_filter_le _ _)
  · simp only [compute_summary]
    by_cases h : requirements.length = 0
    · simp [h]
    · have hpos : 0 < requirements.length := Nat.pos_of_ne_zero h
      rw [if_pos hpos, if_neg h]
      have hq : (requirements.length : ℚ) ≠ 0 := by exact_mod_cast h
      field_simp
      ring
  · intro pr hpr
    simp only [compute_summary, List.mem_map] at hpr
    obtain ⟨priority, -, rfl⟩ := hpr
    exact Nat.add_sub_cancel' (List.length_filter_le _ _)

/-- Witness for C4 at a concrete requirement list: one High requirement
covered by a test, one Low requirement uncovered. -/
theorem compute_summary_laws_witness :
    let reqs : List RequirementInfo :=
      [{ id := "R-001", text := none, priority := .High, status := .Draft,
         snippet_id := "a.fn", covered_by := ["T-001"], span := ⟨0, 0⟩ },
       { id := "R-002", text := none, priority := .Low, status := .Draft,
         snippet_id := "a.fn", covered_by := [], span := ⟨1, 2⟩ }]
    (compute_summary reqs).covered_requirements +
        (compute_summary reqs).uncovered_requirements =
      (compute_summary reqs).total_requirements ∧
    (compute_summary reqs).coverage_percent =
      (if (compute_summary reqs).total_requirements = 0 then 100
       else (100 * (compute_summary reqs).covered_requirements /
         (compute_summary reqs).total_requirements : ℚ)) ∧
    ∀ pr ∈ (compute_summary reqs).by_priority,
      pr.2.covered + pr.2.uncovered = pr.2.total :=
  compute_summary_laws _

/-! ## Claim C2: `validate` reports exactly the uncovered requirements at or
above the warning threshold -/

/-- C2: for every extracted requirement set (keys unique, each value keyed
by its own id, extraction errors free of `UncoveredRequirement`, as
`extract` guarantees) and every validator configuration, a requirement `r`
of the coverage-linked map is reported as an `UncoveredRequirement` error by
`validate` if and only if its `covered_by` list is empty and its priority
ordinal (Critical=0, High=1, Medium=2, Low=3) is at most the ordinal of the
configuration's `warning_min_priority`. -/
theorem validate_uncovered_iff (ext : ExtractionResult)
    (config : ValidatorConfig) (r : RequirementInfo)
    (h0 : ∀ e ∈ ext.errors, e.isUncovered = false)
    (h1 : (ext.requirements.map Prod.fst).Nodup)
    (h2 : ∀ pr ∈ ext.requirements, (Prod.snd pr : RequirementInfo).id = pr.1)
    (hr : (r.id, r) ∈
      (build_coverage_links ext.requirements ext.tests ext.errors).1) :
    (RequirementError.UncoveredRequirement r.id r.priority r.snippet_id r.span
        ∈ (validate ext config).errors) ↔
      (r.covered_by = [] ∧
        priority_ord r.priority ≤ priority_ord config.warning_min_priority) := by
  have hkeys := build_coverage_links_keys ext.requirements ext.tests ext.errors
  have hnd : ((build_coverage_links ext.requirements ext.tests
      ext.errors).1.map Prod.fst).Nodup := hkeys ▸ h1
  -- every entry of the linked map is keyed by its value's id
  have hkeyid : ∀ pr ∈ (build_coverage_links ext.requirements ext.tests
      ext.errors).1, (Prod.snd pr : RequirementInfo).id = pr.1 := by
    rintro ⟨k₀, r₀⟩ hmem
    have hlk : (build_coverage_links ext.requirements ext.tests
        ext.errors).1.lookup k₀ = some r₀ :=
      (mem_iff_lookup_of_nodup _ _ _ hnd).mp hmem
    have hst := build_coverage_links_staticFields ext.requirements ext.tests
      ext.errors k₀
    rw [hlk] at hst
    cases hlk' : ext.requirements.lookup k₀ with
    | none => rw [hlk'] at hst; simp at hst
    | some r₁ =>
      rw [hlk'] at hst
      simp only [Option.map] at hst
      have hid : r₀.id = r₁.id := congrArg (fun q => q.1) (Option.some.inj hst)
      have hmem₁ : (k₀, r₁) ∈ ext.requirements :=
        (mem_iff_lookup_of_nodup _ _ _ h1).mpr hlk'
      simpa [hid] using h2 _ hmem₁
  have hvals : (validate ext config).errors =
      (build_coverage_links ext.requirements ext.tests ext.errors).2 ++
        ((((build_coverage_links ext.requirements ext.tests
              ext.errors).1.map Prod.snd).filter
            (fun req : RequirementInfo =>
              decide (req.covered_by = [] ∧
                priority_ord req.priority ≤
                  priority_ord config.warning_min_priority))).map
          (fun req : RequirementInfo =>
            RequirementError.UncoveredRequirement req.id
              req.priority req.snippet_id req.span)) := rfl
  constructor
  · intro hmem
    rw [hvals] at hmem
    rcases List.mem_append.mp hmem with hleft | hright
    · -- impossible: the linked error list holds no UncoveredRequirement
      have hcnt : (build_coverage_links ext.requirements ext.tests
          ext.errors).2.countP RequirementError.isUncovered = 0 := by
        rw [build_coverage_links_uncovered_count]
        rw [List.countP_eq_zero]
        intro e he
        simp [h0 e he]
      rw [List.countP_eq_zero] at hcnt
      have := hcnt _ hleft
      simp [RequirementError.isUncovered] at this
    · obtain ⟨q, hq', heq⟩ := List.mem_map.mp hright
      obtain ⟨hrin, hp⟩ := List.mem_filter.mp hq'
      obtain ⟨⟨k', r''⟩, hk'', rfl⟩ := List.mem_map.mp hrin
      have hid' : r''.id = r.id := by
        simpa using congrArg (fun e : RequirementError =>
          match e with
          | .UncoveredRequirement i _ _ _ => i
          | _ => "") heq
      -- the entry found is keyed by r.id, hence identical to r
      have hkey : (Prod.snd (k', r'') : RequirementInfo).id = k' := hkeyid _ hk''
      have hk'eq : k' = r.id := by
        rw [← hkey]
        exact hid'
      subst hk'eq
      have hlk₁ := (mem_iff_lookup_of_nodup _ _ _ hnd).mp hk''
      have hlk₂ := (mem_iff_lookup_of_nodup _ _ _ hnd).mp hr
      have : r'' = r := Option.some.inj (hlk₁.symm.trans hlk₂)
      subst this
      simpa using of_decide_eq_true hp
  · rintro ⟨hcov, hord⟩
    rw [hvals]
    refine List.mem_append.mpr (Or.inr ?_)
    refine List.mem_map.mpr ⟨r, ?_, rfl⟩
    refine List.mem_filter.mpr ⟨?_, ?_⟩
    · exact List.mem_map.mpr ⟨(r.id, r), hr, rfl⟩
    · exact decide_eq_true ⟨hcov, hord⟩

/-- Witness for C2: one uncovered High requirement and one test covering
nothing relevant, default configuration. -/
theorem validate_uncovered_iff_witness :
    let r : RequirementInfo :=
      { id := "R-001", text := none, priority := .High, status := .Draft,
        snippet_id := "a.fn", covered_by := [], span := ⟨3, 9⟩ }
    let ext : ExtractionResult := ⟨[("R-001", r)], [], []⟩
    (∀ e ∈ ext.errors, e.isUncovered = false) ∧
    ((ext.requirements.map Prod.fst).Nodup) ∧
    (∀ pr ∈ ext.requirements, (Prod.snd pr : RequirementInfo).id = pr.1) ∧
    ((r.id, r) ∈
      (build_coverage_links ext.requirements ext.tests ext.errors).1) ∧
    ((RequirementError.UncoveredRequirement r.id r.priority r.snippet_id r.span
        ∈ (validate ext ValidatorConfig.default_config).errors) ↔
      (r.covered_by = [] ∧
        priority_ord r.priority ≤
          priority_ord ValidatorConfig.default_config.warning_min_priority)) := by
  refine ⟨by decide, by decide, by decide, by decide, ?_⟩
  exact validate_uncovered_iff _ _ _ (by decide) (by decide) (by decide)
    (by decide)

/-! ## Claim C5: duplicate requirement/test ids during extraction -/

/-- C5 counterexample: a program in which the requirement id `R-001` occurs
three times.  `extract` records one `DuplicateRequirement` error per
occurrence after the first — two errors here — so the repeated id `R-001`
does not produce exactly one error, contradicting the claim as stated. -/
theorem extract_three_occurrences_two_errors :
    ((extract (Program.Snippets
      [{ id := "a.fn", kind := "fn", sections :=
          [SnippetSection.Requires
            [{ id := "R-001", text := none, priority := none, status := none,
               span := ⟨0, 1⟩ },
             { id := "R-001", text := none, priority := none, status := none,
               span := ⟨2, 3⟩ },
             { id := "R-001", text := none, priority := none, status := none,
               span := ⟨4, 5⟩ }]] }])).errors.countP
        (isDupReqFor "R-001")) = 2 := by
  decide

/-- C5 (amended): for every program and id, extraction produces exactly one
`DuplicateRequirement` error per occurrence of a requirement id after the
first (that is, `occurrences − 1` errors in total for that id, so a
twice-declared id yields exactly one error but a thrice-declared id yields
two), and likewise one `DuplicateTest` error per repeated test-id
occurrence; in each case the requirement or test recorded in the result is
the first occurrence in snippet order, and later occurrences with the same
id are not inserted. -/
theorem extract_duplicates_first_wins (p : Program) (id : String) :
    ((extract p).errors.countP (isDupReqFor id) =
      (reqIdsOfEvents (programEvents p)).count id - 1) ∧
    ((extract p).requirements.lookup id =
      (firstReqOcc id (programEvents p)).map fun o => reqInfoOf o.1 o.2) ∧
    ((extract p).errors.countP (isDupTestFor id) =
      (testIdsOfEvents (programEvents p)).count id - 1) ∧
    ((extract p).tests.lookup id =
      (firstTestOcc id (programEvents p)).map fun o => testInfoOf o.1 o.2) := by
  rw [extract_eq_foldl_events]
  refine ⟨?_, ?_, ?_, ?_⟩
  · rw [foldl_dupReq_count]
    simp [countBase]
  · rw [foldl_req_lookup]
    simp
  · rw [foldl_dupTest_count]
    simp [countBase]
  · rw [foldl_test_lookup]
    simp

/-! ## covenant-runtime: symbol store (modelled from the spec; `store.rs` and
`types.rs` are absent from the tree) -/

/-- Modelled from the spec (§3, `types.rs` is absent): a symbol-store entry
`(id, kind, file, line, effects, effect_closure, calls, called_by, span,
version)`. -/
structure RuntimeSymbol where
  id : String
  kind : String
  file : String
  line : Nat
  effects : List String
  effect_closure : List String
  calls : List String
  called_by : List String
  span : Span
  version : Nat
deriving DecidableEq, Repr

/-- Modelled from the spec and the constructor calls in `query.rs` tests
(`types.rs` is absent): `RuntimeSymbol::new(id, kind)` with every other
field empty. -/
def RuntimeSymbol.new (id kind : String) : RuntimeSymbol :=
  { id := id, kind := kind, file := "", line := 0, effects := [],
    effect_closure := [], calls := [], called_by := [], span := ⟨0, 0⟩,
    version := 0 }

/-- Modelled from the spec (§4.5, `types.rs` is absent):
`SymbolFilter (kind?, has_effect?, calls_fn?, called_by_fn?)`. -/
structure SymbolFilter where
  kind : Option String
  has_effect : Option String
  calls_fn : Option String
  called_by_fn : Option String
deriving DecidableEq, Repr

/-- `SymbolFilter::default()`: no constraints. -/
def SymbolFilter.default : SymbolFilter := ⟨none, none, none, none⟩

/-- Modelled from the spec (§4.5): a symbol matches a filter when it
satisfies all non-null fields (`has_effect` is checked against
`effect_closure`, as the `query.rs` tests demonstrate). -/
def SymbolFilter.matches (f : SymbolFilter) (s : RuntimeSymbol) : Bool :=
  (match f.kind with | some k => s.kind == k | none => true) &&
  (match f.has_effect with
   | some e => s.effect_closure.contains e | none => true) &&
  (match f.calls_fn with | some c => s.calls.contains c | none => true) &&
  (match f.called_by_fn with
   | some c => s.called_by.contains c | none => true)

/-- Ascending lexicographic comparison of symbols by id (`a.id.cmp(&b.id)`). -/
def symIdLe (a b : RuntimeSymbol) : Prop := a.id ≤ b.id

instance : DecidableRel symIdLe := fun a b =>
  inferInstanceAs (Decidable (a.id ≤ b.id))

instance : IsTotal RuntimeSymbol symIdLe := ⟨fun a b => le_total a.id b.id⟩

instance : IsTrans RuntimeSymbol symIdLe := ⟨fun _ _ _ h1 h2 => le_trans h1 h2⟩

/-- Sort symbols ascending by id (lexicographic). -/
def sortById (symbols : List RuntimeSymbol) : List RuntimeSymbol :=
  symbols.insertionSort symIdLe

/-- Modelled from the spec (§4.5, `store.rs` is absent): a name-keyed
symbol map (embedded as a list of symbols with unique ids) plus a
monotonically increasing version counter. -/
structure SymbolStore where
  symbols : List RuntimeSymbol
  version : Nat
deriving DecidableEq, Repr

/-- `SymbolStore::new()`. -/
def SymbolStore.new : SymbolStore := ⟨[], 0⟩

/-- Modelled from the spec (§4.5): `upsert` replaces the entry with the same
id (or inserts a new one), increments the version first, and returns the new
version. -/
def SymbolStore.upsert (store : SymbolStore) (symbol : RuntimeSymbol) :
    Nat × SymbolStore :=
  let version := store.version + 1
  let symbols :=
    if store.symbols.any (fun s => s.id == symbol.id) then
      store.symbols.map fun s => if s.id == symbol.id then symbol else s
    else store.symbols ++ [symbol]
  (version, ⟨symbols, version⟩)

/-- Modelled from the spec (§4.5): `delete` removes the entry and increments
the version; deleting an absent id is a no-op returning `false` (as the
`mutation.rs` test `test_delete_snippet` shows). -/
def SymbolStore.delete (store : SymbolStore) (id : String) :
    Bool × SymbolStore :=
  if store.symbols.any (fun s => s.id == id) then
    (true, ⟨store.symbols.filter (fun s => ¬ s.id == id), store.version + 1⟩)
  else
    (false, store)

/-- Modelled from the spec (§4.5): `contains`. -/
def SymbolStore.contains (store : SymbolStore) (id : String) : Bool :=
  store.symbols.any (fun s => s.id == id)

/-- Modelled from the spec (§4.5): `get`. -/
def SymbolStore.get (store : SymbolStore) (id : String) :
    Option RuntimeSymbol :=
  store.symbols.find? (fun s => s.id == id)

/-- Modelled from the spec (§4.5): `list(filter)` returns the matching
subset in insertion-independent, lexicographic-by-id order. -/
def SymbolStore.list (store : SymbolStore) (filter : SymbolFilter) :
    List RuntimeSymbol :=
  sortById (store.symbols.filter filter.matches)

/-- The callers of a given id, in store order. -/
def callersOf (store : SymbolStore) (id : String) : List String :=
  List.map RuntimeSymbol.id (store.symbols.filter fun t => t.calls.contains id)

/-- Modelled from the spec (§4.5): `recompute_backward_refs` rebuilds every
symbol's `called_by` as the transpose of `calls`. -/
def SymbolStore.recompute_backward_refs (store : SymbolStore) : SymbolStore :=
  { store with symbols := store.symbols.map (fun s =>
      { s with called_by := callersOf store s.id }) }

/-! ## covenant-runtime: query engine (`src/crates/covenant-runtime/src/query.rs`) -/

/-- Modelled from the spec (§7, `error.rs` is absent): runtime errors of the
query/mutation layer. -/
inductive RuntimeError where
  | InvalidQuery (msg : String)
  | QueryCancelled
  | SymbolNotFound (id : String)
deriving DecidableEq, Repr

/-- The recognized fields of a parsed `where_clause` JSON object.  JSON
parsing itself is `serde_json` (an external library); the clause is
embedded already parsed, so `apply_where_clause` cannot fail here.  A
`contains` entry is a `(field, value)` pair. -/
structure WhereClause where
  has_effect : Option String
  calls : Option String
  called_by : Option String
  kind : Option String
  containsField : Option (String × String)
deriving DecidableEq, Repr

/-- `QueryRequest` from `query.rs`; `where_clause` is embedded parsed, and
`u32` limits/offsets as `Nat`. -/
structure QueryRequest where
  select_clause : String
  from_type : String
  where_clause : Option WhereClause
  order_by : Option String
  limit : Option Nat
  offset : Option Nat
deriving DecidableEq, Repr

/-- `QueryResult` from `query.rs`. -/
structure QueryResult where
  symbols : List RuntimeSymbol
  version : Nat
  has_more : Bool
deriving DecidableEq, Repr

/-- The `from_type` table at the top of `QueryEngine::execute`: a recognized
name maps to its kind filter (`none` meaning any kind); an unrecognized name
maps to `none` (and `execute` errors). -/
def kindFilterOf : String → Option (Option String)
  | "functions" => some (some "fn")
  | "structs" => some (some "struct")
  | "enums" => some (some "enum")
  | "modules" => some (some "module")
  | "databases" => some (some "database")
  | "externs" => some (some "extern")
  | "all" => some none
  | "*" => some none
  | _ => none

/-- `QueryEngine::apply_where_clause` from `query.rs`, after JSON parsing:
set each recognized field; a `contains` entry on `effects` sets
`has_effect`. -/
def apply_where_clause (filter : SymbolFilter) (w : WhereClause) :
    SymbolFilter :=
  let filter := match w.has_effect with
    | some effect => { filter with has_effect := some effect }
    | none => filter
  let filter := match w.calls with
    | some calls => { filter with calls_fn := some calls }
    | none => filter
  let filter := match w.called_by with
    | some called_by => { filter with called_by_fn := some called_by }
    | none => filter
  let filter := match w.kind with
    | some kind => { filter with kind := some kind }
    | none => filter
  match w.containsField with
  | some (field, value) =>
      if field = "effects" then { filter with has_effect := some value }
      else filter
  | none => filter

/-- `QueryEngine::apply_ordering` from `query.rs`: parse `field:dir` and
sort by the named field. -/
def apply_ordering (symbols : List RuntimeSymbol) (order : String) :
    Except RuntimeError (List RuntimeSymbol) :=
  let parts := order.splitOn ":"
  let field := (parts.get? 0).getD "id"
  let dir := (parts.get? 1).getD "asc"
  match dir with
  | "asc" =>
      match field with
      | "id" => .ok (symbols.insertionSort fun a b => a.id ≤ b.id)
      | "kind" => .ok (symbols.insertionSort fun a b => a.kind ≤ b.kind)
      | "file" => .ok (symbols.insertionSort fun a b => a.file ≤ b.file)
      | "line" => .ok (symbols.insertionSort fun a b => a.line ≤ b.line)
      | _ => .error (.InvalidQuery ("Unknown order field: " ++ field))
  | "desc" =>
      match field with
      | "id" => .ok (symbols.insertionSort fun a b => b.id ≤ a.id)
      | "kind" => .ok (symbols.insertionSort fun a b => b.kind ≤ a.kind)
      | "file" => .ok (symbols.insertionSort fun a b => b.file ≤ a.file)
      | "line" => .ok (symbols.insertionSort fun a b => b.line ≤ a.line)
      | _ => .error (.InvalidQuery ("Unknown order field: " ++ field))
  | _ => .error (.InvalidQuery ("Invalid order direction: " ++ dir))

/-- The effective filter built by `execute`: the kind filter from
`from_type`, refined by the where clause when present. -/
def effectiveFilter (kind_filter : Option String)
    (where_clause : Option WhereClause) : SymbolFilter :=
  let filter := { SymbolFilter.default with kind := kind_filter }
  match where_clause with
  | some w => apply_where_clause filter w
  | none => filter

/-- The pagination tail of `execute`: slice `[start, stop)` out of the
sorted symbols (skipped entirely when `offset` is 0 and `limit` absent) and
compute `has_more`. -/
def paginate (store : SymbolStore) (request : QueryRequest)
    (symbols : List RuntimeSymbol) : QueryResult :=
  let total_count := symbols.length
  let offset := request.offset.getD 0
  let limit := request.limit
  let symbols :=
    if offset > 0 || limit.isSome then
      let start := min offset symbols.length
      let stop := match limit with
        | some l => min (start + l) symbols.length
        | none => symbols.length
      (symbols.take stop).drop start
    else symbols
  { symbols := symbols
    version := store.version
    has_more := decide (offset + symbols.length < total_count) }

/-- `QueryEngine::execute` from `query.rs`. -/
def execute (store : SymbolStore) (request : QueryRequest) :
    Except RuntimeError QueryResult :=
  match kindFilterOf request.from_type with
  | none => .error (.InvalidQuery ("Unknown from_type: " ++ request.from_type))
  | some kind_filter =>
      let filter := effectiveFilter kind_filter request.where_clause
      let symbols := store.list filter
      match request.order_by with
      | some order =>
          match apply_ordering symbols order with
          | .error e => .error e
          | .ok sorted => .ok (paginate store request sorted)
      | none => .ok (paginate store request (sortById symbols))

/-- `QueryStatus` from `query.rs`. -/
inductive QueryStatus where
  | Pending
  | Complete
  | Error
  | Cancelled
deriving DecidableEq, Repr

instance {ε α : Type} [DecidableEq ε] [DecidableEq α] :
    DecidableEq (Except ε α) := fun x y =>
  match x, y with
  | .ok a, .ok b =>
      if h : a = b then isTrue (by rw [h])
      else isFalse (by intro hh; cases hh; exact h rfl)
  | .error e, .error f =>
      if h : e = f then isTrue (by rw [h])
      else isFalse (by intro hh; cases hh; exact h rfl)
  | .ok _, .error _ => isFalse (by intro hh; cases hh)
  | .error _, .ok _ => isFalse (by intro hh; cases hh)

/-- `AsyncQuery` from `query.rs`. -/
structure AsyncQuery where
  request : QueryRequest
  status : QueryStatus
  result : Option (Except RuntimeError QueryResult)
deriving DecidableEq, Repr

/-- `QueryEngine` from `query.rs`: the `AtomicU64` handle counter is a `Nat`
(the engine is single-threaded) and the pending `HashMap` an association
list. -/
structure QueryEngine where
  next_handle : Nat
  pending : List (Nat × AsyncQuery)
deriving DecidableEq, Repr

/-- `QueryEngine::new`: handles start at 1. -/
def QueryEngine.new : QueryEngine := ⟨1, []⟩

/-- Update the entry at one handle. -/
def updateHandle (engine : QueryEngine) (handle : Nat)
    (f : AsyncQuery → AsyncQuery) : QueryEngine :=
  { engine with pending := engine.pending.map fun p =>
      if p.1 = handle then (p.1, f p.2) else p }

/-- `QueryEngine::start_query` from `query.rs`: record a `Pending` entry
under the next handle and return it. -/
def start_query (engine : QueryEngine) (request : QueryRequest) :
    Nat × QueryEngine :=
  let handle := engine.next_handle
  (handle, ⟨engine.next_handle + 1,
    engine.pending ++ [(handle, ⟨request, .Pending, none⟩)]⟩)

/-- `QueryEngine::poll_query` from `query.rs`: status of the handle, or
`Error` for an unknown handle. -/
def poll_query (engine : QueryEngine) (handle : Nat) : QueryStatus :=
  ((engine.pending.lookup handle).map AsyncQuery.status).getD .Error

/-- `QueryEngine::process_query` from `query.rs`: execute a query still in
`Pending`, storing the result and the `Complete`/`Error` status; any other
state is left untouched. -/
def process_query (engine : QueryEngine) (handle : Nat) (store : SymbolStore) :
    QueryEngine :=
  match engine.pending.lookup handle with
  | some q =>
      if q.status = .Pending then
        let result := execute store q.request
        let status := match result with
          | .ok _ => QueryStatus.Complete
          | .error _ => QueryStatus.Error
        updateHandle engine handle fun q =>
          { q with result := some result, status := status }
      else engine
  | none => engine

/-- `QueryEngine::get_result` from `query.rs`, with the stored value kept as
a `RuntimeError` (the Rust code stringifies it on the way out). -/
def get_result (engine : QueryEngine) (handle : Nat) :
    Option (Except RuntimeError QueryResult) :=
  (engine.pending.lookup handle).bind fun q => q.result

/-- `QueryEngine::cancel_query` from `query.rs`: a `Pending` query becomes
`Cancelled` with a stored `QueryCancelled` error; any other state is left
untouched. -/
def cancel_query (engine : QueryEngine) (handle : Nat) : QueryEngine :=
  match engine.pending.lookup handle with
  | some q =>
      if q.status = .Pending then
        updateHandle engine handle fun q =>
          { q with status := .Cancelled,
                   result := some (.error .QueryCancelled) }
      else engine
  | none => engine

/-- `QueryEngine::cleanup_completed` from `query.rs`: retain only `Pending`
handles. -/
def cleanup_completed (engine : QueryEngine) : QueryEngine :=
  { engine with pending :=
      engine.pending.filter fun p => p.2.status = .Pending }

/-! ## covenant-runtime: mutator (`src/crates/covenant-runtime/src/mutation.rs`) -/

/-- `MutationResult` from `mutation.rs`. -/
structure MutationResult where
  success : Bool
  errors : List String
  warnings : List String
  new_version : Nat
deriving DecidableEq, Repr

/-- `MutationResult::ok` from `mutation.rs`. -/
def MutationResult.ok (version : Nat) : MutationResult :=
  ⟨true, [], [], version⟩

/-- `MutationResult::err` from `mutation.rs`. -/
def MutationResult.err (errors : List String) : MutationResult :=
  ⟨false, errors, [], 0⟩

/-- Rust `str::contains` for string patterns: the pattern occurs as a
contiguous substring. -/
def containsSubstr (s pattern : String) : Bool :=
  decide (pattern.data <:+: s.data)

/-- `Mutator::parse_snippet` from `mutation.rs`: lightweight validation
(non-empty after trimming; contains `snippet`, `id=`, `kind=`, `end`).  The
diagnostic strings are abbreviated but one per check as in the source. -/
def parse_snippet (source : String) : MutationResult :=
  if source.trim = "" then
    .err ["Empty source"]
  else if ¬ containsSubstr source "snippet" then
    .err ["Source must contain a snippet declaration"]
  else if ¬ containsSubstr source "id=" then
    .err ["Snippet must have an id attribute"]
  else if ¬ containsSubstr source "kind=" then
    .err ["Snippet must have a kind attribute"]
  else if ¬ containsSubstr source "end" then
    .err ["Snippet must be terminated with end"]
  else
    .ok 0

/-- `Mutator::update_snippet` from `mutation.rs`: validate, then upsert a
placeholder symbol (with substring-detected effects) and recompute backward
references; on validation failure return the failed result with the store
untouched. -/
def update_snippet (store : SymbolStore) (id source : String) :
    MutationResult × SymbolStore :=
  let parse_result := parse_snippet source
  if parse_result.success then
    let symbol := { RuntimeSymbol.new id "fn" with file := "<runtime>" }
    let symbol :=
      if containsSubstr source "effect database" then
        { symbol with effects := symbol.effects ++ ["database"],
                      effect_closure := symbol.effect_closure ++ ["database"] }
      else symbol
    let symbol :=
      if containsSubstr source "effect network" then
        { symbol with effects := symbol.effects ++ ["network"],
                      effect_closure := symbol.effect_closure ++ ["network"] }
      else symbol
    let vs := store.upsert symbol
    (MutationResult.ok vs.1, vs.2.recompute_backward_refs)
  else
    (parse_result, store)

/-- `Mutator::delete_snippet` from `mutation.rs`. -/
def delete_snippet (store : SymbolStore) (id : String) : Bool × SymbolStore :=
  let ds := store.delete id
  if ds.1 then (true, ds.2.recompute_backward_refs) else (false, ds.2)

/-! ## Claim C9: failed validation leaves the store untouched -/

/-- `parse_snippet` succeeds exactly when every lightweight check passes. -/
theorem parse_snippet_success_iff (source : String) :
    (parse_snippet source).success = true ↔
      (¬ source.trim = "" ∧ containsSubstr source "snippet" = true ∧
       containsSubstr source "id=" = true ∧
       containsSubstr source "kind=" = true ∧
       containsSubstr source "end" = true) := by
  unfold parse_snippet
  repeat' split
  all_goals simp_all [MutationResult.ok, MutationResult.err]

/-- C9: for every symbol store, id, and source string that fails the
Mutator's lightweight validation (empty after trimming, or lacking any of
the substrings `snippet`, `id=`, `kind=`, `end`), `update_snippet` returns
an unsuccessful `MutationResult` and leaves the store completely unchanged
(in particular no symbol is inserted, removed, or modified, and the version
is not incremented). -/
theorem update_snippet_invalid_noop (store : SymbolStore) (id source : String)
    (h : source.trim = "" ∨ containsSubstr source "snippet" = false ∨
         containsSubstr source "id=" = false ∨
         containsSubstr source "kind=" = false ∨
         containsSubstr source "end" = false) :
    (update_snippet store id source).1.success = false ∧
    (update_snippet store id source).2 = store := by
  have hfail : (parse_snippet source).success = false := by
    rcases Bool.eq_false_or_eq_true (parse_snippet source).success with ht | hf
    · obtain ⟨h1, h2, h3, h4, h5⟩ := (parse_snippet_success_iff source).mp ht
      rcases h with h | h | h | h | h <;> simp_all
    · exact hf
  simp [update_snippet, hfail]

/-- Witness for C9: a populated store and the source `"x"` (which lacks the
`snippet` substring) — validation fails and the store is returned intact. -/
theorem update_snippet_invalid_noop_witness :
    let store : SymbolStore := ⟨[RuntimeSymbol.new "math.add" "fn"], 5⟩
    (("x".trim = "" ∨ containsSubstr "x" "snippet" = false ∨
      containsSubstr "x" "id=" = false ∨
      containsSubstr "x" "kind=" = false ∨
      containsSubstr "x" "end" = false) ∧
     ((update_snippet store "test.foo" "x").1.success = false ∧
      (update_snippet store "test.foo" "x").2 = store)) :=
  ⟨Or.inr (Or.inl (by decide)),
   update_snippet_invalid_noop _ "test.foo" "x" (Or.inr (Or.inl (by decide)))⟩

/-! ## Claim C7: cancelling a pending query -/

/-- The updated handle's entry after `updateHandle`. -/
theorem updateHandle_lookup_self (engine : QueryEngine) (handle : Nat)
    (f : AsyncQuery → AsyncQuery) :
    (updateHandle engine handle f).pending.lookup handle =
      (engine.pending.lookup handle).map f := by
  unfold updateHandle
  dsimp only
  rw [show (fun p : Nat × AsyncQuery =>
        if p.1 = handle then (p.1, f p.2) else p) =
      (fun p => (p.1,
        (fun (k : Nat) (q : AsyncQuery) => if k = handle then f q else q)
          p.1 p.2)) from by
    funext p
    by_cases hp : p.1 = handle <;> simp [hp]]
  rw [lookup_map_keyed
    (fun (k : Nat) (q : AsyncQuery) => if k = handle then f q else q)
    handle engine.pending]
  cases engine.pending.lookup handle <;> simp

/-- Other handles are untouched by `updateHandle`. -/
theorem updateHandle_lookup_ne (engine : QueryEngine) (handle other : Nat)
    (f : AsyncQuery → AsyncQuery) (hne : ¬ other = handle) :
    (updateHandle engine handle f).pending.lookup other =
      engine.pending.lookup other := by
  unfold updateHandle
  dsimp only
  rw [show (fun p : Nat × AsyncQuery =>
        if p.1 = handle then (p.1, f p.2) else p) =
      (fun p => (p.1,
        (fun (k : Nat) (q : AsyncQuery) => if k = handle then f q else q)
          p.1 p.2)) from by
    funext p
    by_cases hp : p.1 = handle <;> simp [hp]]
  rw [lookup_map_keyed
    (fun (k : Nat) (q : AsyncQuery) => if k = handle then f q else q)
    other engine.pending]
  cases engine.pending.lookup other <;> simp [hne]

/-- C7: cancelling a handle whose status is `Pending` sets its status to
`Cancelled` and stores a `QueryCancelled` error as its result; thereafter
any `process_query` call (on any handle, against any store) leaves that
handle's entry unchanged — the query is never executed — and `cancel_query`
has no effect at all on engines whose addressed handle is not `Pending`. -/
theorem cancel_query_spec (engine : QueryEngine) (handle other : Nat)
    (store : SymbolStore)
    (hp : (engine.pending.lookup handle).map AsyncQuery.status =
      some .Pending) :
    ((cancel_query engine handle).pending.lookup handle).map
        AsyncQuery.status = some .Cancelled ∧
    ((cancel_query engine handle).pending.lookup handle).map
        AsyncQuery.result = some (some (.error .QueryCancelled)) ∧
    (process_query (cancel_query engine handle) other store).pending.lookup
        handle = (cancel_query engine handle).pending.lookup handle ∧
    (∀ (engine₂ : QueryEngine) (handle₂ : Nat),
      (∀ q, engine₂.pending.lookup handle₂ = some q →
        ¬ q.status = .Pending) →
      cancel_query engine₂ handle₂ = engine₂) := by
  obtain ⟨q, hl, hq⟩ : ∃ q, engine.pending.lookup handle = some q ∧
      q.status = .Pending := by
    cases hl : engine.pending.lookup handle with
    | none => rw [hl] at hp; cases hp
    | some q =>
        rw [hl] at hp
        exact ⟨q, rfl, Option.some.inj hp⟩
  have hc : cancel_query engine handle =
      updateHandle engine handle (fun q =>
        { q with status := .Cancelled,
                 result := some (.error .QueryCancelled) }) := by
    unfold cancel_query
    rw [hl]
    simp [hq]
  have hl' : (cancel_query engine handle).pending.lookup handle =
      some { q with status := .Cancelled,
                    result := some (.error .QueryCancelled) } := by
    rw [hc, updateHandle_lookup_self, hl]
    rfl
  refine ⟨by rw [hl']; rfl, by rw [hl']; rfl, ?_, ?_⟩
  · by_cases hoh : other = handle
    · subst hoh
      unfold process_query
      simp [hl']
    · unfold process_query
      cases hlo : (cancel_query engine handle).pending.lookup other with
      | none => rfl
      | some q2 =>
          by_cases hq2 : q2.status = QueryStatus.Pending
          · simp only [hq2, if_pos]
            exact updateHandle_lookup_ne _ other handle _ (fun hh => hoh hh.symm)
          · simp only [hq2]
            rfl
  · intro engine₂ handle₂ hnp
    unfold cancel_query
    cases hl₂ : engine₂.pending.lookup handle₂ with
    | none => rfl
    | some q₂ =>
        have := hnp q₂ hl₂
        simp [this]

/-- Witness for C7: a fresh engine with one started (hence pending) query,
cancelled at its own handle. -/
theorem cancel_query_spec_witness :
    let request : QueryRequest := ⟨"all", "all", none, none, none, none⟩
    let engine := (start_query QueryEngine.new request).2
    let handle := (start_query QueryEngine.new request).1
    ((engine.pending.lookup handle).map AsyncQuery.status =
      some .Pending) ∧
    (((cancel_query engine handle).pending.lookup handle).map
        AsyncQuery.status = some .Cancelled ∧
    ((cancel_query engine handle).pending.lookup handle).map
        AsyncQuery.result = some (some (.error .QueryCancelled)) ∧
    (process_query (cancel_query engine handle) handle
        SymbolStore.new).pending.lookup
        handle = (cancel_query engine handle).pending.lookup handle ∧
    (∀ (engine₂ : QueryEngine) (handle₂ : Nat),
      (∀ q, engine₂.pending.lookup handle₂ = some q →
        ¬ q.status = .Pending) →
      cancel_query engine₂ handle₂ = engine₂)) :=
  ⟨by decide, cancel_query_spec _ _ _ SymbolStore.new (by decide)⟩

/-! ## Claim C1: `execute` with default ordering, pagination, `has_more` -/

/-- The slice `(take stop).drop start` of the pagination path equals
`offset`-then-`limit` applied as list operations. -/
theorem slice_eq_drop_take {α : Type} (l : List α) (off lim : Nat) :
    ((l.take (min (min off l.length + lim) l.length)).drop
        (min off l.length)) = (l.drop off).take lim := by
  rcases le_total off l.length with hoff | hoff
  · rw [min_eq_left hoff]
    rcases le_total (off + lim) l.length with hl | hl
    · rw [min_eq_left hl]
      exact (List.take_drop off lim l).symm
    · rw [min_eq_right hl, List.take_length]
      rw [List.take_of_length_le]
      rw [List.length_drop]
      omega
  · rw [min_eq_right hoff, min_eq_right (Nat.le_add_right _ _),
      List.take_length, List.drop_length,
      List.drop_eq_nil_of_le hoff]
    simp

/-- The no-limit slice `(take len).drop start` equals dropping the offset
(and a trailing `take` of the full length is the identity). -/
theorem slice_eq_drop {α : Type} (l : List α) (off : Nat) :
    (l.take l.length).drop (min off l.length) = (l.drop off).take l.length := by
  rw [List.take_length,
    List.take_of_length_le (by rw [List.length_drop]; omega)]
  rcases le_total off l.length with hoff | hoff
  · rw [min_eq_left hoff]
  · rw [min_eq_right hoff, List.drop_length,
      List.drop_eq_nil_of_le hoff]

/-- C1: for every symbol store and every `QueryRequest` whose `from_type`
is recognized and whose `order_by` is absent, `execute` succeeds and
returns the matching symbols sorted ascending by id, with `offset` applied
first and `limit` second, `has_more` true exactly when
`offset + returned < total_matching`, and the store's version. -/
theorem execute_default_order_spec (store : SymbolStore)
    (request : QueryRequest) (kind_filter : Option String)
    (hf : kindFilterOf request.from_type = some kind_filter)
    (ho : request.order_by = none) :
    ∃ (res : QueryResult) (sorted : List RuntimeSymbol),
      execute store request = .ok res ∧
      sorted.Perm
        (store.list (effectiveFilter kind_filter request.where_clause)) ∧
      sorted.Sorted symIdLe ∧
      res.symbols = (sorted.drop (request.offset.getD 0)).take
        (request.limit.getD sorted.length) ∧
      (res.has_more = true ↔
        request.offset.getD 0 + res.symbols.length <
          (store.list (effectiveFilter kind_filter
            request.where_clause)).length) ∧
      res.version = store.version := by
  have hex : execute store request = .ok (paginate store request
      (sortById (store.list
        (effectiveFilter kind_filter request.where_clause)))) := by
    unfold execute
    rw [hf, ho]
  refine ⟨paginate store request (sortById (store.list
      (effectiveFilter kind_filter request.where_clause))),
    sortById (store.list (effectiveFilter kind_filter request.where_clause)),
    hex, List.perm_insertionSort _ _, List.sorted_insertionSort _ _,
    ?_, ?_, rfl⟩
  · -- the returned symbols are the drop/take slice of the sorted matches
    cases hlim : request.limit with
    | some lim =>
        simp only [paginate, hlim, Option.isSome_some, Bool.or_true, if_pos,
          Option.getD_some]
        exact slice_eq_drop_take _ _ lim
    | none =>
        simp only [paginate, hlim, Option.isSome_none, Bool.or_false,
          Option.getD_none]
        by_cases hoz : 0 < request.offset.getD 0
        · rw [if_pos (by simpa using hoz)]
          exact slice_eq_drop _ _
        · rw [if_neg (by simpa using hoz)]
          have h0 : request.offset.getD 0 = 0 := Nat.eq_zero_of_not_pos hoz
          rw [h0, List.drop_zero, List.take_length]
  · -- has_more ↔ offset + returned < total matching
    have hlen : (sortById (store.list
        (effectiveFilter kind_filter request.where_clause))).length =
        (store.list (effectiveFilter kind_filter
          request.where_clause)).length :=
      (List.perm_insertionSort _ _).length_eq
    simp only [paginate]
    rw [hlen]
    exact decide_eq_true_iff

/-- Witness for C1: the three-function store of the `query.rs` tests with
`from_type = "functions"`, `limit = 2`, `offset = 0` and no ordering. -/
theorem execute_default_order_spec_witness :
    let store : SymbolStore :=
      ⟨[RuntimeSymbol.new "db.query" "fn", RuntimeSymbol.new "auth.login" "fn",
        RuntimeSymbol.new "math.add" "fn"], 3⟩
    let request : QueryRequest :=
      ⟨"all", "functions", none, none, some 2, some 0⟩
    (kindFilterOf request.from_type = some (some "fn")) ∧
    (request.order_by = none) ∧
    (∃ (res : QueryResult) (sorted : List RuntimeSymbol),
      execute store request = .ok res ∧
      sorted.Perm
        (store.list (effectiveFilter (some "fn") request.where_clause)) ∧
      sorted.Sorted symIdLe ∧
      res.symbols = (sorted.drop (request.offset.getD 0)).take
        (request.limit.getD sorted.length) ∧
      (res.has_more = true ↔
        request.offset.getD 0 + res.symbols.length <
          (store.list (effectiveFilter (some "fn")
            request.where_clause)).length) ∧
      res.version = store.version) :=
  ⟨rfl, rfl, execute_default_order_spec _ _ (some "fn") rfl rfl⟩

/-! ## covenant-lexer (`src/crates/covenant-lexer/src/lib.rs`; the
`TokenKind` rule table lives in the absent `token.rs` and is modelled from
the spec §4.1).  Sources are embedded as `List Char` and spans count
characters (the sources relevant here are ASCII, where byte and character
offsets coincide). -/

/-- Modelled from the spec (§4.1, `token.rs` is absent): token kinds.  The
individual keyword and operator variants of the source enum are collapsed
onto their lexeme (`Kw "snippet"` for `TokenKind::Snippet`, `OpTok ":="`
for `TokenKind::ColonEq`, …); literal, `Ident`, `Error` and `Eof` variants
are kept as in the source. -/
inductive TokenKind where
  | Kw (kw : String)
  | Ident
  | IntLit
  | FloatLit
  | StrLit
  | TripleStrLit
  | OpTok (sym : String)
  | Error
  | Eof
deriving DecidableEq, Repr

/-- `Token` from `covenant-lexer/src/lib.rs`: a kind with its span. -/
structure Token where
  kind : TokenKind
  span : Span
deriving DecidableEq, Repr

/-- Modelled from the spec (§4.1) and the keyword tests in
`covenant-lexer/src/lib.rs`: the keyword table. -/
def keywords : List String :=
  ["snippet", "signature", "body", "end", "step", "op", "select", "from",
   "where", "order", "by", "limit", "effect", "effects", "requires", "req",
   "test", "tests", "relations", "metadata", "true", "false", "none", "let",
   "and", "or", "not", "input", "var", "lit", "as", "add", "sub", "mul",
   "div", "mod", "equals", "not_equals", "less", "less_eq", "greater",
   "greater_eq", "neg", "id", "kind"]

/-- An identifier-continuation character. -/
def isIdentChar (c : Char) : Bool := c.isAlphanum || c = '_'

/-- Characters after the opening quote of an ordinary string up to and
including the closing quote, skipping escape sequences; `none` when the
string is unterminated. -/
def scanString : List Char → Option Nat
  | [] => none
  | '\\' :: _ :: rest => (scanString rest).map (· + 2)
  | '\\' :: [] => none
  | '"' :: _ => some 1
  | _ :: rest => (scanString rest).map (· + 1)

/-- Characters of a triple-quoted string body before the closing `"""`;
`none` when unterminated. -/
def findTriple : List Char → Option Nat
  | '"' :: '"' :: '"' :: _ => some 0
  | _ :: rest => (findTriple rest).map (· + 1)
  | [] => none

/-- Length of a line comment body up to (not including) the newline. -/
def skipLine : List Char → Nat
  | [] => 0
  | c :: rest => if c = '\n' then 0 else 1 + skipLine rest

/-- Modelled from the spec (§4.1, the logos rule table of `token.rs` is
absent): longest-match recognition of one token.  Given the first character
and the remaining input, produce the token kind and the number of extra
characters consumed beyond the first.  Unrecognized characters and
unterminated strings become `Error` tokens; `Eof` is never produced. -/
def nextToken (c : Char) (rest : List Char) : TokenKind × Nat :=
  if c.isAlpha || c = '_' then
    let tail := rest.takeWhile isIdentChar
    let lexeme := String.mk (c :: tail)
    (if keywords.contains lexeme then .Kw lexeme else .Ident, tail.length)
  else if c.isDigit then
    let ds := rest.takeWhile Char.isDigit
    match rest.drop ds.length with
    | '.' :: d :: _ =>
        if d.isDigit then
          let frac := ((rest.drop ds.length).drop 1).takeWhile Char.isDigit
          (.FloatLit, ds.length + 1 + frac.length)
        else (.IntLit, ds.length)
    | _ => (.IntLit, ds.length)
  else if c = '"' then
    match rest with
    | '"' :: '"' :: rest3 =>
        match findTriple rest3 with
        | some n => (.TripleStrLit, 2 + n + 3)
        | none => (.Error, rest.length)
    | _ =>
        match scanString rest with
        | some n => (.StrLit, n)
        | none => (.Error, rest.length)
  else
    match c, rest.head? with
    | ':', some '=' => (.OpTok ":=", 1)
    | '!', some '=' => (.OpTok "!=", 1)
    | '<', some '=' => (.OpTok "<=", 1)
    | '>', some '=' => (.OpTok ">=", 1)
    | '-', some '>' => (.OpTok "->", 1)
    | '=', some '>' => (.OpTok "=>", 1)
    | ':', some ':' => (.OpTok "::", 1)
    | '&', some '&' => (.OpTok "&&", 1)
    | '|', some '|' => (.OpTok "||", 1)
    | _, _ =>
        if ("=<>+-*/%!:;,.?|(){}[]".data.contains c) then
          (.OpTok (String.mk [c]), 0)
        else (.Error, 0)

/-- The tokenization loop of `tokenize` from `covenant-lexer/src/lib.rs`:
skip whitespace and `//…` comments, emit one token per rule match (an
unrecognized character becomes an `Error` token), and stop at the end of
input.  Every iteration consumes at least one character, so fuel
`source.length + 1` (supplied by `tokenize`) is never exhausted. -/
def tokenizeCore (fuel : Nat) (cs : List Char) (pos : Nat) : List Token :=
  match fuel with
  | 0 => []
  | fuel + 1 =>
      match cs with
      | [] => []
      | c :: rest =>
          if c.isWhitespace then tokenizeCore fuel rest (pos + 1)
          else if c = '/' ∧ rest.head? = some '/' then
            let n := 2 + skipLine (rest.drop 1)
            tokenizeCore fuel (cs.drop n) (pos + n)
          else
            ⟨(nextToken c rest).1, ⟨pos, pos + 1 + (nextToken c rest).2⟩⟩ ::
              tokenizeCore fuel (rest.drop (nextToken c rest).2)
                (pos + 1 + (nextToken c rest).2)

/-- `tokenize` from `covenant-lexer/src/lib.rs`: run the lexer over the
whole source, then append the single `Eof` token with span
`[len, len)`. -/
def tokenize (source : List Char) : List Token :=
  tokenizeCore (source.length + 1) source 0 ++
    [⟨.Eof, ⟨source.length, source.length⟩⟩]

set_option maxHeartbeats 1000000 in
/-- The rule table never produces `Eof`. -/
theorem nextToken_ne_eof (c : Char) (rest : List Char) :
    ¬ (nextToken c rest).1 = .Eof := by
  intro h
  unfold nextToken at h
  dsimp only at h
  repeat' split at h
  all_goals simp_all

/-- The lexing loop never produces `Eof`. -/
theorem tokenizeCore_no_eof :
    ∀ (fuel : Nat) (cs : List Char) (pos : Nat) (t : Token),
      t ∈ tokenizeCore fuel cs pos → ¬ t.kind = .Eof := by
  intro fuel
  induction fuel with
  | zero =>
      intro cs pos t ht
      simp [tokenizeCore] at ht
  | succ fuel ih =>
      intro cs pos t ht
      cases cs with
      | nil => simp [tokenizeCore] at ht
      | cons c rest =>
          rw [tokenizeCore] at ht
          split at ht
          · exact ih _ _ _ ht
          · split at ht
            · exact ih _ _ _ ht
            · rcases List.mem_cons.mp ht with rfl | ht
              · exact nextToken_ne_eof c rest
              · exact ih _ _ _ ht

/-- C6: for every input, `tokenize` terminates (it is a total function) and
returns a non-empty token vector whose last element is the only `Eof`
token, with span `[len, len)` where `len` is the length of the source;
unrecognized input does not abort tokenization but yields `Error` tokens,
as the unrecognized character `@` demonstrates. -/
theorem tokenize_total_eof (source : List Char) :
    tokenize source ≠ [] ∧
    (tokenize source).getLast? =
      some ⟨.Eof, ⟨source.length, source.length⟩⟩ ∧
    (tokenize source).countP (fun t => decide (t.kind = .Eof)) = 1 ∧
    tokenize ['@'] = [⟨.Error, ⟨0, 1⟩⟩, ⟨.Eof, ⟨1, 1⟩⟩] := by
  refine ⟨?_, ?_, ?_, ?_⟩
  · simp [tokenize]
  · exact List.getLast?_concat _
  · rw [tokenize, List.countP_append]
    have h0 : (tokenizeCore (source.length + 1) source 0).countP
        (fun t => decide (t.kind = .Eof)) = 0 := by
      rw [List.countP_eq_zero]
      intro t ht
      simpa using tokenizeCore_no_eof _ _ _ t ht
    rw [h0]
    simp
  · rfl

/-! ## covenant-parser (`src/crates/covenant-parser/src/lib.rs`; the parser
body lives in the absent `parser.rs`/`error.rs` and is modelled from the
spec §4.2/§7 and the tests in `lib.rs`).  The model covers the snippet form
of the grammar: a snippet is `snippet` followed by `id`/`kind` attributes in
any order, then keyword-opened blocks each closed by `end`, with the final
`end` closing the snippet; section contents are skipped (no claim inspects
them), so parsed snippets carry an empty section list.  The legacy
(non-snippet) form is outside the claims and is an `UnexpectedToken` error
here.  As `test_parse_missing_snippet_id` and `test_parse_unclosed_snippet`
require, a snippet missing a required attribute or an unclosed block makes
the whole `parse` return `Err` — the signature
`Result<Program, ParseError>` has no error list to recover into. -/

/-- Modelled from the spec (§7, `error.rs` is absent): parse errors. -/
inductive ParseError where
  | UnexpectedToken (span : Span)
  | UnexpectedEof
  | UnknownAttribute (span : Span)
  | MissingAttribute (name : String) (span : Span)
  | UnclosedBlock (span : Span)
deriving DecidableEq, Repr

/-- Keywords that open an `end`-terminated block inside a snippet
(modelled from the spec §3/§4.2 section and construct list). -/
def blockOpeners : List String :=
  ["signature", "body", "effects", "requires", "tests", "relations",
   "metadata", "content", "step", "req", "test", "fn", "struct", "enum",
   "variant", "union", "where", "then", "else", "params", "case"]

/-- The text of a string literal token (the parser materializes literals
from the token's span; surrounding quotes are stripped). -/
def strVal (source : List Char) (sp : Span) : String :=
  String.mk ((source.drop (sp.start + 1)).take (sp.stop - sp.start - 2))

/-- Skip a snippet's blocks, tracking `end` nesting; the `end` at depth 0
closes the snippet.  Reaching `Eof` first is an `UnclosedBlock` error
(`end` imbalance is fatal). -/
def skipBody (toks : List Token) (depth : Nat) :
    Except ParseError (List Token) :=
  match toks with
  | [] => .error .UnexpectedEof
  | t :: rest =>
      match t.kind with
      | .Eof => .error (.UnclosedBlock t.span)
      | .Kw "end" =>
          if depth = 0 then .ok rest else skipBody rest (depth - 1)
      | .Kw k =>
          if blockOpeners.contains k then skipBody rest (depth + 1)
          else skipBody rest depth
      | _ => skipBody rest depth

/-- Parse the attribute list after the `snippet` keyword: `id="…"` and
`kind="…"` in any order. -/
def parseAttrs (source : List Char) (toks : List Token)
    (idAttr kindAttr : Option String) :
    Option String × Option String × List Token :=
  match toks with
  | ⟨.Kw "id", _⟩ :: ⟨.OpTok "=", _⟩ :: ⟨.StrLit, sp⟩ :: rest =>
      parseAttrs source rest (some (strVal source sp)) kindAttr
  | ⟨.Kw "kind", _⟩ :: ⟨.OpTok "=", _⟩ :: ⟨.StrLit, sp⟩ :: rest =>
      parseAttrs source rest idAttr (some (strVal source sp))
  | _ => (idAttr, kindAttr, toks)

/-- Parse one snippet after its opening keyword (whose span is `kwSpan`):
attributes, then the skipped body.  A missing required attribute is a
`MissingAttribute` error at the span of the opening keyword. -/
def parseSnippet (source : List Char) (kwSpan : Span) (toks : List Token) :
    Except ParseError (Snippet × List Token) :=
  match parseAttrs source toks none none with
  | (idAttr, kindAttr, rest) =>
      match idAttr with
      | none => .error (.MissingAttribute "id" kwSpan)
      | some id =>
          match kindAttr with
          | none => .error (.MissingAttribute "kind" kwSpan)
          | some kind =>
              match skipBody rest 0 with
              | .error e => .error e
              | .ok rest2 => .ok (⟨id, kind, []⟩, rest2)

/-- `Parser::parse_program`, snippet form: snippets in sequence until
`Eof`.  A snippet parse error aborts the whole parse (the return type
carries one error, not a list).  Every snippet consumes at least its
opening token, so fuel `tokens.length + 1` is never exhausted. -/
def parseProgram (source : List Char) (fuel : Nat) (toks : List Token)
    (acc : List Snippet) : Except ParseError Program :=
  match fuel with
  | 0 => .error .UnexpectedEof
  | fuel + 1 =>
      match toks with
      | [] => .ok (.Snippets acc.reverse)
      | t :: rest =>
          match t.kind with
          | .Eof => .ok (.Snippets acc.reverse)
          | .Kw "snippet" =>
              match parseSnippet source t.span rest with
              | .error e => .error e
              | .ok (s, rest2) => parseProgram source fuel rest2 (s :: acc)
          | _ => .error (.UnexpectedToken t.span)

/-- `parse` from `covenant-parser/src/lib.rs`: tokenize, then parse the
program. -/
def parse (source : List Char) : Except ParseError Program :=
  let tokens := tokenize source
  parseProgram source (tokens.length + 1) tokens []

/-! ## Claim C3: a snippet that fails to parse -/

/-- C3 counterexample: a source text with one well-formed snippet followed
by a snippet missing its required `id` attribute.  `parse` does not return
a `Program` with the failing snippet dropped and the well-formed snippet
kept: it aborts the whole parse with a `MissingAttribute` error (at the
span of the second `snippet` keyword), exactly as the repository test
`test_parse_missing_snippet_id` requires of a missing-id snippet. -/
theorem parse_missing_id_aborts :
    parse ("snippet id=\"a.fn\" kind=\"fn\" body end end " ++
        "snippet kind=\"fn\" body end end").data =
      Except.error (ParseError.MissingAttribute "id" ⟨41, 48⟩) := by
  rfl

/-- C3 (amended): a snippet missing its required `id` attribute yields a
parse error at the span of the opening `snippet` keyword which aborts the
whole parse; the remaining well-formed snippets are not returned, whether
they precede or follow the failing snippet (the signature
`Result<Program, ParseError>` returns one error, not a program plus an
error list).  A source of well-formed snippets alone parses to the program
with all of them present. -/
theorem parse_missing_id_spec :
    parse ("snippet id=\"a.fn\" kind=\"fn\" body end end " ++
        "snippet kind=\"fn\" body end end").data =
      Except.error (ParseError.MissingAttribute "id" ⟨41, 48⟩) ∧
    parse ("snippet kind=\"fn\" body end end " ++
        "snippet id=\"a.fn\" kind=\"fn\" body end end").data =
      Except.error (ParseError.MissingAttribute "id" ⟨0, 7⟩) ∧
    parse ("snippet id=\"a.fn\" kind=\"fn\" body end end " ++
        "snippet id=\"b.fn\" kind=\"fn\" body end end").data =
      Except.ok (Program.Snippets
        [⟨"a.fn", "fn", []⟩, ⟨"b.fn", "fn", []⟩]) := by
  exact ⟨rfl, rfl, rfl⟩

/-! ## covenant-codegen data graph (modelled from the spec §4.4; the
code-generator sources are absent from the tree, only its integration
tests `data_graph_integration.rs` are present) -/

/-- Modelled from the spec (§4.4): a directed typed edge of the embedded
data graph. -/
structure GraphEdge where
  src : String
  dst : String
  rtype : String
deriving DecidableEq, Repr

/-- Modelled from the spec (§4.4): the relation inversion rule —
`inverse(contains) = contained_by`, `inverse(describes) = described_by`,
`inverse(references) = referenced_by`, `inverse(implements) =
implemented_by`; unknown relation types receive an `inv_<T>` inverse
name. -/
def inverseRel (t : String) : String :=
  match t with
  | "contains" => "contained_by"
  | "describes" => "described_by"
  | "references" => "referenced_by"
  | "implements" => "implemented_by"
  | _ => "inv_" ++ t

/-- The declared outgoing edges of a program's snippets, in snippet and
section order. -/
def declaredEdges (snippets : List Snippet) : List GraphEdge :=
  snippets.flatMap fun s =>
    s.sections.flatMap fun sec =>
      match sec with
      | .Relations rels => rels.map fun r => ⟨s.id, r.dst, r.rtype⟩
      | _ => []

/-- The synthesized inverse of a declared edge: for `(a → b, T)` the entry
`(b → a, inverse(T))`. -/
def invEdge (e : GraphEdge) : GraphEdge := ⟨e.dst, e.src, inverseRel e.rtype⟩

/-- Modelled from the spec (§4.4): the synthesized inverse array — one
inverse per declared edge. -/
def synthesizedInverses (snippets : List Snippet) : List GraphEdge :=
  (declaredEdges snippets).map invEdge

/-- Modelled from the spec (§4.4): a node's outgoing edges are its declared
edges plus the synthesized inverses of its incoming declared edges
(`cov_get_outgoing_count` returns the length of this list). -/
def outgoingEdges (snippets : List Snippet) (node : String) :
    List GraphEdge :=
  (declaredEdges snippets).filter (fun d => d.src = node) ++
    (synthesizedInverses snippets).filter (fun d => d.src = node)

/-- `"inv_" ++ t` spelled out on character data. -/
theorem inv_prefix_data (t : String) :
    ("inv_" ++ t).data = 'i' :: 'n' :: 'v' :: '_' :: t.data := rfl

/-- A string whose first four characters are not `inv_` is not of the form
`"inv_" ++ t`. -/
theorem ne_inv_form (s t : String)
    (h4 : ¬ s.data.take 4 = ['i', 'n', 'v', '_']) : ¬ s = "inv_" ++ t := by
  intro he
  apply h4
  rw [he, inv_prefix_data]
  rfl

/-- The relation inversion rule is injective: distinct relation types have
distinct inverse names (the four known inverse names are pairwise distinct
and none of them starts with `inv_`). -/
theorem inverseRel_injective (a b : String) (h : inverseRel a = inverseRel b) :
    a = b := by
  unfold inverseRel at h
  split at h <;> split at h
  all_goals (try (exact absurd h (by decide)))
  all_goals (try rfl)
  all_goals (try (exact absurd h (ne_inv_form _ _ (by decide))))
  all_goals (try (exact absurd h.symm (ne_inv_form _ _ (by decide))))
  -- remaining: both arguments fall through to the inv_ default
  have hd := congrArg String.data h
  rw [inv_prefix_data, inv_prefix_data] at hd
  simp only [List.cons.injEq] at hd
  exact String.ext hd.2.2.2.2

/-- Edge inversion is injective. -/
theorem invEdge_injective : Function.Injective invEdge := by
  intro e1 e2 h
  obtain ⟨s1, d1, t1⟩ := e1
  obtain ⟨s2, d2, t2⟩ := e2
  simp only [invEdge, GraphEdge.mk.injEq] at h
  obtain ⟨h1, h2, h3⟩ := h
  simp only [GraphEdge.mk.injEq]
  exact ⟨h2, h1, inverseRel_injective _ _ h3⟩

/-- C8: for every program whose declared relation list has no duplicate
edges, and every declared relation `(a → b, T)`, the generated graph
contains exactly one synthesized inverse `(b → a, inverse(T))`, the
synthesized inverses contain no duplicates, and every node's outgoing
count equals its declared edges plus the synthesized inverses of its
incoming declared edges — originals and inverses are never
double-counted. -/
theorem data_graph_inverse_spec (snippets : List Snippet) (e : GraphEdge)
    (hnd : (declaredEdges snippets).Nodup)
    (he : e ∈ declaredEdges snippets) :
    (synthesizedInverses snippets).count (invEdge e) = 1 ∧
    (synthesizedInverses snippets).Nodup ∧
    (∀ node, (outgoingEdges snippets node).length =
      ((declaredEdges snippets).filter (fun d => d.src = node)).length +
        ((declaredEdges snippets).filter (fun d => d.dst = node)).length) := by
  refine ⟨?_, ?_, ?_⟩
  · unfold synthesizedInverses
    rw [List.count_map_of_injective _ invEdge invEdge_injective]
    exact List.count_eq_one_of_mem hnd he
  · exact hnd.map invEdge_injective
  · intro node
    unfold outgoingEdges synthesizedInverses
    rw [List.length_append]
    congr 1
    rw [List.filter_map, List.length_map]
    rfl

/-- Witness for C8: the `test_gai_outgoing_relations` program — `parent`
declaring `contains` edges to `child1` and `child2`. -/
theorem data_graph_inverse_spec_witness :
    let snippets : List Snippet :=
      [⟨"parent", "data",
        [.Relations [⟨"child1", "contains"⟩, ⟨"child2", "contains"⟩]]⟩,
       ⟨"child1", "data", []⟩,
       ⟨"child2", "data", []⟩]
    let e : GraphEdge := ⟨"parent", "child1", "contains"⟩
    ((declaredEdges snippets).Nodup) ∧
    (e ∈ declaredEdges snippets) ∧
    ((synthesizedInverses snippets).count (invEdge e) = 1 ∧
     (synthesizedInverses snippets).Nodup ∧
     (∀ node, (outgoingEdges snippets node).length =
       ((declaredEdges snippets).filter (fun d => d.src = node)).length +
         ((declaredEdges snippets).filter (fun d => d.dst = node)).length)) :=
  ⟨by decide, by decide,
   data_graph_inverse_spec _ _ (by decide) (by decide)⟩

end Covenant
